import Mathlib

/-!
# sqlbench: a verification development

A shallow embedding of `main.go` of `arp242/sqlbench` and theorems about it.

Conventions of the embedding:

* a Go function that can return an error or hit a run-time panic returns an
  `Outcome`;
* what the Go code obtains from the operating system or from a library that is
  not part of the repository (opening files, the CSV reader, the database, the
  clock, `ztime`, `%q` quoting) is taken as a field of an environment
  structure, so every theorem holds for every behaviour of those parts;
* the benchmark of `main` is embedded twice: as a function, in which the tasks
  run one at a time in the order of submission, and as a transition system
  whose runs are all the interleavings of the steps of the tasks and of the
  main goroutine; the function gives the outcome of one of these runs
  (`bench_is_a_run`);
* `[]interface{}` rows that hold strings are lists of strings;
* Go `int` is `Int`, reduced to 64 bits where the code does arithmetic on it.
-/

set_option autoImplicit false

namespace Sqlbench

/-! ## Outcomes of Go code -/

/-- How a piece of Go code ends: with a value, with a returned `error`, or with
a run-time panic. -/
inductive Outcome (α : Type) where
  | ok : α → Outcome α
  | err : String → Outcome α
  | panic : String → Outcome α
  deriving DecidableEq, Repr

/-- Go's `s[1:]` on a slice: a run-time panic when `len(s) < 1`. -/
def sliceFrom1 {α : Type} : List α → Option (List α)
  | [] => none
  | _ :: tl => some tl

/-- Go's `strconv.Itoa` and the `%d` verb on an `int`. -/
def itoa (i : Int) : String :=
  match i with
  | Int.ofNat n => Nat.repr n
  | Int.negSucc n => "-" ++ Nat.repr (n + 1)

/-! ## readParams -/

/-- What `readParams` needs from outside the repository. -/
structure ParamEnv (File : Type) where
  /-- `zli.InputOrFile(p, false)` for the `i`-th entry of `-params`: the open
  file (or standard input), or the error on opening. -/
  inputOrFile : Nat → String → Except String File
  /-- `csv.NewReader(fp).ReadAll()` on that file. -/
  csvReadAll : File → Except String (List (List String))
  /-- The `%q` verb of `fmt`. -/
  quote : String → String

/-- A parameter row, `[]interface{}` holding the fields of one record. -/
abbrev Row := List String

/-- The inner loops of `readParams`: every record `r` of `recs` becomes a row
holding every field `r2` of `r`, appended in order. -/
def convertRows (recs : List (List String)) : List Row :=
  recs.foldl (fun rows r => rows ++ [r.foldl (fun row r2 => row ++ [r2]) []]) []

/-- The loop `for _, p := range params` of `readParams`, from the `i`-th entry
on, with the rows `all` and the standard output `out` so far. -/
def readParamsLoop {File : Type} (env : ParamEnv File) (verbose : Bool) :
    Nat → List String → List Row → List String → List String × Outcome (List Row)
  | _, [], all, out => (out, Outcome.ok all)
  | i, p :: ps, all, out =>
    let out1 := if verbose && p != "-" then
        out ++ ["Reading parameters from " ++ env.quote p ++ " …"] else out
    match env.inputOrFile i p with
    | Except.error e => (out1, Outcome.err e)
    | Except.ok fp =>
      match env.csvReadAll fp with
      | Except.error e => (out1, Outcome.err e)
      | Except.ok cr =>
        match sliceFrom1 cr with
        | none => (out1, Outcome.panic "runtime error: slice bounds out of range [1:0]")
        | some tl =>
          let rows := convertRows tl
          let out2 := if verbose then
              out1 ++ [" " ++ itoa rows.length ++ " parameters read\n"] else out1
          readParamsLoop env verbose (i + 1) ps (all ++ rows) out2

/-- `readParams(query, params, verbose)`: the standard output and the
result. -/
def readParams {File : Type} (env : ParamEnv File) (_query : String) (params : List String)
    (verbose : Bool) : List String × Outcome (List Row) :=
  readParamsLoop env verbose 0 params [] []

/-- A file system for `readParams` in which the `i`-th entry of `-params` is a
file that opens and holds the records `files[i]`. -/
def paramEnvOf (files : List (List (List String))) : ParamEnv (List (List String)) where
  inputOrFile := fun i _ => Except.ok ((files.get? i).getD [])
  csvReadAll := fun fp => Except.ok fp
  quote := fun s => "\"" ++ s ++ "\""

/-- From the `i`-th entry on, every entry of `params` opens and parses as CSV,
and `files` lists the records of each, in the order of `params`. -/
def ParsesAs {File : Type} (env : ParamEnv File) :
    Nat → List String → List (List (List String)) → Prop
  | _, [], [] => True
  | i, p :: ps, f :: fs =>
    (∃ fp, env.inputOrFile i p = Except.ok fp ∧ env.csvReadAll fp = Except.ok f) ∧
      ParsesAs env (i + 1) ps fs
  | _, _, _ => False

/-! ## connectDB -/

/-- Go's `filepath.Ext` on the reversed path: scanning from the end, stop with
no extension at a path separator, and return the suffix from the first dot
met. `acc` is the suffix scanned so far. -/
def extScan : List Char → List Char → List Char
  | [], _ => []
  | c :: cs, acc =>
    if c = '/' then [] else if c = '.' then '.' :: acc else extScan cs (c :: acc)

/-- Go's `filepath.Ext`: the suffix beginning at the final dot in the final
element of `path`, empty if there is no dot. -/
def Ext (path : String) : String :=
  String.mk (extScan path.data.reverse [])

/-- The library function `zfilepath.SplitExt`: the path without its extension,
and the extension without the dot. -/
def SplitExt (path : String) : String × String :=
  let ext := (Ext path).data
  (String.mk (path.data.take (path.data.length - ext.length)), String.mk (ext.drop 1))

/-- Go's `strings.Cut` on characters: the text before and after the first
occurrence of `sep`, if there is one. -/
def cutChars (sep : List Char) : List Char → Option (List Char × List Char)
  | [] => if sep = [] then some ([], []) else none
  | c :: cs =>
    if sep.isPrefixOf (c :: cs) then some ([], (c :: cs).drop sep.length)
    else match cutChars sep cs with
      | some (a, b) => some (c :: a, b)
      | none => none

/-- The library function `zstring.Split2`: the parts before and after the
first `sep`; the whole string and an empty second part when `sep` does not
occur. -/
def Split2 (str sep : String) : String × String :=
  match cutChars sep.data str.data with
  | some (a, b) => (String.mk a, String.mk b)
  | none => (str, "")

/-- What `connectDB` does to the world, in order. -/
inductive Effect where
  /-- `zdb.Connect` with this connection string. -/
  | connect : String → Effect
  /-- `fmt.Printf` or `fmt.Println` of this text. -/
  | print : String → Effect
  /-- `os.ReadFile` of this path. -/
  | readFile : String → Effect
  /-- `db.Exec` of this SQL text. -/
  | exec : String → Effect
  /-- `os.Open` of this path. -/
  | openFile : String → Effect
  /-- `zdb.NewBulkInsert` for this table and these columns. -/
  | newBulkInsert : String → List String → Effect
  /-- `bi.Values` of this row into this table. -/
  | bulkValues : String → List String → Effect
  /-- `bi.Finish` for this table. -/
  | bulkFinish : String → Effect
  deriving DecidableEq, Repr

/-- What a CSV reader yields: the records that `c.Read()` returns one by one,
and what follows them, `io.EOF` (`none`) or a read error. -/
structure CsvStream where
  records : List (List String)
  ending : Option String

/-- What `connectDB` needs from outside the repository. The database answers
may depend on everything done so far. -/
structure DBEnv where
  /-- `zdb.Connect`: the error, if any. -/
  connect : String → Option String
  /-- `os.ReadFile`. -/
  readFile : String → Except String String
  /-- `db.Exec(ctx, sql)` after the effects so far: the error, if any. -/
  exec : List Effect → String → Option String
  /-- `os.Open` followed by `csv.NewReader`. -/
  openCsv : String → Except String CsvStream
  /-- `bi.Finish()` after the effects so far: the error, if any. -/
  bulkFinish : List Effect → Option String
  /-- The `%q` verb of `fmt`. -/
  quote : String → String

/-- The `default:` case of the switch in `connectDB`: the value `s` is read and
run as SQL. Returns the effects of this value and the error, if any. -/
def setupSQL (env : DBEnv) (verbose : Bool) (s : String) (tr : List Effect) :
    List Effect × Option String :=
  let e0 := if verbose then
      [Effect.print ("Running -setup flag " ++ env.quote s ++ " as SQL …")] else []
  match env.readFile s with
  | Except.error e => (e0 ++ [Effect.readFile s], some e)
  | Except.ok d =>
    match env.exec (tr ++ e0 ++ [Effect.readFile s]) d with
    | some e =>
      (e0 ++ [Effect.readFile s, Effect.exec d], some ("running " ++ env.quote s ++ ": " ++ e))
    | none => (e0 ++ [Effect.readFile s, Effect.exec d], none)

/-- The loop over `c.Read()` in `connectDB`: every record becomes a row of
`[]interface{}` handed to `bi.Values`. -/
def insertRows (tbl : String) (rows : List (List String)) : List Effect :=
  rows.map (fun row => Effect.bulkValues tbl (row.foldl (fun iRow r => iRow ++ [r]) []))

/-- The `case "csv":` of the switch in `connectDB`. Returns the effects of this
value and the error, if any. -/
def setupCSV (env : DBEnv) (verbose : Bool) (s : String) (tr : List Effect) :
    List Effect × Option String :=
  let tbl := (Split2 s ":").1
  let file := (Split2 s ":").2
  if file = "" then
    ([], some ("wrong value for -setup: " ++ env.quote s ++
      ": csv files need to be as \x27tablename:file.csv\x27"))
  else
    let e0 := if verbose then
        [Effect.print ("Running -setup flag " ++ env.quote file ++ " as CSV for table " ++
          env.quote tbl ++ " …")] else []
    match env.openCsv file with
    | Except.error e => (e0 ++ [Effect.openFile file], some e)
    | Except.ok c =>
      match c.records with
      | [] => (e0 ++ [Effect.openFile file], some (c.ending.getD "EOF"))
      | header :: rows =>
        let ev := e0 ++ [Effect.openFile file, Effect.newBulkInsert tbl header] ++
          insertRows tbl rows
        match c.ending with
        | some e => (ev, some e)
        | none =>
          match env.bulkFinish (tr ++ ev) with
          | some e => (ev ++ [Effect.bulkFinish tbl], some e)
          | none => (ev ++ [Effect.bulkFinish tbl], none)

/-- The body of `for _, s := range setup` in `connectDB`, for one value `s`
after the effects `tr`. Returns the effects of this value and the error, if
any. -/
def setupOne (env : DBEnv) (verbose : Bool) (s : String) (tr : List Effect) :
    List Effect × Option String :=
  let r := if (SplitExt s).2 = "csv" then setupCSV env verbose s tr
    else setupSQL env verbose s tr
  match r.2 with
  | some e => (r.1, some e)
  | none => (if verbose then r.1 ++ [Effect.print " Okay\n"] else r.1, none)

/-- The loop `for _, s := range setup` of `connectDB`, after the effects
`tr`. -/
def setupLoop (env : DBEnv) (verbose : Bool) : List String → List Effect →
    List Effect × Outcome Unit
  | [], tr => (tr, Outcome.ok ())
  | s :: rest, tr =>
    match (setupOne env verbose s tr).2 with
    | some e => (tr ++ (setupOne env verbose s tr).1, Outcome.err e)
    | none => setupLoop env verbose rest (tr ++ (setupOne env verbose s tr).1)

/-- `connectDB(dbConnect, setup, verbose)`: everything it did, and whether it
returned the database or an error. -/
def connectDB (env : DBEnv) (dbConnect : String) (setup : List String) (verbose : Bool) :
    List Effect × Outcome Unit :=
  match env.connect dbConnect with
  | some e => ([Effect.connect dbConnect], Outcome.err e)
  | none => setupLoop env verbose setup [Effect.connect dbConnect]

/-- What `connectDB` prints with `-verbose` before it runs the value `s` as
SQL. -/
def sqlNotice (env : DBEnv) (verbose : Bool) (s : String) : List Effect :=
  if verbose then [Effect.print ("Running -setup flag " ++ env.quote s ++ " as SQL …")] else []

/-- What `connectDB` prints with `-verbose` before it loads `file` into the table
`tbl`. -/
def csvNotice (env : DBEnv) (verbose : Bool) (file tbl : String) : List Effect :=
  if verbose then
    [Effect.print ("Running -setup flag " ++ env.quote file ++ " as CSV for table " ++
      env.quote tbl ++ " …")] else []

/-- What `connectDB` prints with `-verbose` after a value that succeeded. -/
def okNotice (verbose : Bool) : List Effect :=
  if verbose then [Effect.print " Okay\n"] else []

/-- A world for `connectDB` given by tables: the SQL files with their content,
the CSV files with their records and what follows them; a file that is in no
table does not exist, the SQL statements in `badSql` fail, `bi.Finish()` fails
after an insert into a table in `badTables`, and connecting fails for an empty
connection string. -/
def dbEnvOf (sqlFiles : List (String × String)) (csvFiles : List (String × CsvStream))
    (badSql badTables : List String) : DBEnv where
  connect := fun c => if c = "" then some "no connection string" else none
  readFile := fun p => match sqlFiles.lookup p with
    | some d => Except.ok d
    | none => Except.error ("open " ++ p ++ ": no such file or directory")
  exec := fun _ q => if badSql.contains q then some "syntax error" else none
  openCsv := fun p => match csvFiles.lookup p with
    | some c => Except.ok c
    | none => Except.error ("open " ++ p ++ ": no such file or directory")
  bulkFinish := fun tr => match tr.getLast? with
    | some (Effect.bulkValues tbl _) =>
      if badTables.contains tbl then some "constraint failed" else none
    | _ => none
  quote := fun s => "\"" ++ s ++ "\""

/-- An example world: a schema file, a file with a wrong statement, a CSV file
with a header and two records, an empty CSV file, and a CSV file that breaks
off after its first record. -/
def exampleDB : DBEnv :=
  dbEnvOf [("schema.sql", "create table t (a)"), ("wrong.sql", "create tble")]
    [("data.csv", { records := [["a"], ["1"], ["2"]], ending := none }),
     ("empty.csv", { records := [], ending := none }),
     ("broken.csv", { records := [["a"], ["1"]], ending := some "wrong number of fields" })]
    ["create tble"] ["locked"]

/-- A world without setup files in which every call succeeds. -/
def plainDB : DBEnv := dbEnvOf [] [] [] []

/-! ## float64 arithmetic of printReport

`printReport` computes the bar length and the percentage of a histogram row in
`float64`. Only non-negative values occur there, so the model has no sign. A
finite value is `m * 2 ^ e`; every operation rounds the exact result to the
nearest `float64`, ties to even, with the exponent range of IEEE 754 binary64
(53 bits, gradual underflow below `2 ^ (-1022)`, overflow to `+Inf`). -/

/-- A non-negative `float64`: the finite value `m * 2 ^ e`, `+Inf`, or `NaN`. -/
inductive F64 where
  | fin : Nat → Int → F64
  | inf : F64
  | nan : F64
  deriving DecidableEq, Repr

/-- The numerator of `a / (b * 2 ^ e)` written as a fraction of naturals. -/
def scaleNum (a : Nat) (e : Int) : Nat :=
  match e with
  | Int.ofNat _ => a
  | Int.negSucc k => a * 2 ^ (k + 1)

/-- The denominator of `a / (b * 2 ^ e)` written as a fraction of naturals. -/
def scaleDen (b : Nat) (e : Int) : Nat :=
  match e with
  | Int.ofNat k => b * 2 ^ k
  | Int.negSucc _ => b

/-- Round the fraction `num / den` to the nearest natural, ties to even. -/
def roundHalfEven (num den : Nat) : Nat :=
  let q := num / den
  let r := num % den
  if 2 * r < den then q
  else if den < 2 * r then q + 1
  else if q % 2 = 0 then q else q + 1

/-- The position of the highest set bit of `n`, computed with `fuel` halvings
at most. -/
def log2Fuel : Nat → Nat → Nat
  | 0, _ => 0
  | fuel + 1, n => if n < 2 then 0 else log2Fuel fuel (n / 2) + 1

/-- The position of the highest set bit of `n`: `2 ^ ilog2 n ≤ n < 2 ^ (ilog2 n + 1)`
for `n > 0`. -/
def ilog2 (n : Nat) : Nat := log2Fuel n n

/-- The exponent `e` with `2 ^ 52 ≤ a / (b * 2 ^ e) < 2 ^ 53`, for `a, b > 0`: the
exponent of `a / b` written with a mantissa of 53 bits. -/
def normExp (a b : Nat) : Int :=
  let e0 : Int := (ilog2 a : Int) - (ilog2 b : Int) - 52
  if scaleNum a e0 / scaleDen b e0 < 2 ^ 52 then e0 - 1 else e0

/-- The exponent of the `float64` nearest to `a / b` (for `a, b > 0`): `normExp`,
and `-1074` for subnormal values. -/
def roundExp (a b : Nat) : Int :=
  max (normExp a b) (-1074)

/-- The `float64` nearest to the exact quotient `a / b` of two naturals, `b > 0`:
what the hardware returns for an operation whose exact result is `a / b`. -/
def roundRatio (a b : Nat) : F64 :=
  if a = 0 then F64.fin 0 0
  else
    let e := roundExp a b
    let m := roundHalfEven (scaleNum a e) (scaleDen b e)
    if 971 < e ∨ (e = 971 ∧ 2 ^ 53 ≤ m) then F64.inf else F64.fin m e

/-- Go's conversion `float64(n)` of a non-negative `int`. -/
def F64.ofNat (n : Nat) : F64 := roundRatio n 1

/-- Go's `x / y` on non-negative `float64` values. -/
def F64.div : F64 → F64 → F64
  | F64.nan, _ => F64.nan
  | _, F64.nan => F64.nan
  | F64.inf, F64.inf => F64.nan
  | F64.inf, F64.fin _ _ => F64.inf
  | F64.fin _ _, F64.inf => F64.fin 0 0
  | F64.fin m1 e1, F64.fin m2 e2 =>
    if m2 = 0 then (if m1 = 0 then F64.nan else F64.inf)
    else roundRatio (m1 * 2 ^ (e1 - min e1 e2).toNat) (m2 * 2 ^ (e2 - min e1 e2).toNat)

/-- Go's `x * y` on non-negative `float64` values. -/
def F64.mul : F64 → F64 → F64
  | F64.nan, _ => F64.nan
  | _, F64.nan => F64.nan
  | F64.inf, F64.inf => F64.inf
  | F64.inf, F64.fin m _ => if m = 0 then F64.nan else F64.inf
  | F64.fin m _, F64.inf => if m = 0 then F64.nan else F64.inf
  | F64.fin m1 e1, F64.fin m2 e2 =>
    roundRatio (m1 * m2 * 2 ^ (e1 + e2).toNat) (2 ^ (-(e1 + e2)).toNat)

/-- Go's conversion `int(x)` of a non-negative `float64`: the value truncated
toward zero. When the value does not fit an `int` (also `+Inf` and `NaN`) the Go
specification leaves the result to the implementation: it is `implDep`. -/
def F64.toInt (implDep : Int) : F64 → Int
  | F64.fin m e =>
    if scaleNum m (-e) / scaleDen 1 (-e) < 2 ^ 63 then
      ((scaleNum m (-e) / scaleDen 1 (-e) : Nat) : Int)
    else implDep
  | _ => implDep

/-- The verb `%.1f` of `fmt` on a non-negative `float64`: the exact value
rounded to one decimal, ties to even. -/
def F64.format1 : F64 → String
  | F64.fin m e =>
    let t := roundHalfEven (scaleNum (10 * m) (-e)) (scaleDen 1 (-e))
    Nat.repr (t / 10) ++ "." ++ Nat.repr (t % 10)
  | F64.inf => "+Inf"
  | F64.nan => "NaN"

/-- The expression `int(widthBar / (l / float64(h.Len())))` of `printReport`, with
`widthBar = 50.0` and `l = float64(times.Len())`. -/
def barLen (implDep : Int) (total bucket : Nat) : Int :=
  F64.toInt implDep (F64.div (F64.ofNat 50) (F64.div (F64.ofNat total) (F64.ofNat bucket)))

/-- The expression `float64(h.Len()) / l * 100` of `printReport`. -/
def perc (total bucket : Nat) : F64 :=
  F64.mul (F64.div (F64.ofNat bucket) (F64.ofNat total)) (F64.ofNat 100)

/-! ## printReport -/

/-- Go's `int`, 64 bits wide: the value of an arithmetic result after
wrap-around. -/
def wrapInt (x : Int) : Int := (x + 2 ^ 63) % 2 ^ 64 - 2 ^ 63

/-- What `printReport` needs from the library `ztime` and from the Go
implementation. A `ztime.Durations` is the list of its durations, in
nanoseconds. -/
structure ReportLib where
  /-- The closure `p` of `printReport`:
  `ztime.DurationAs(d.Round(time.Millisecond), time.Millisecond)`. -/
  p : Int → String
  /-- `Durations.Sum`. -/
  sum : List Int → Int
  /-- `Durations.Min`. -/
  min : List Int → Int
  /-- `Durations.Max`. -/
  max : List Int → Int
  /-- `Durations.Median`. -/
  median : List Int → Int
  /-- `Durations.Mean`. -/
  mean : List Int → Int
  /-- `Durations.Distrubute`. -/
  distrubute : List Int → Nat → List (List Int)
  /-- The implementation-dependent result of converting to `int` a `float64`
  that does not fit. -/
  implDep : Int

/-- The verbs `%6s`, `%<w>s` and `%<w>d` of `fmt`: pad with spaces on the left
to `w` characters. -/
def padLeft (w : Nat) (s : String) : String :=
  String.mk (List.replicate (w - s.length) ' ') ++ s

/-- The first loop of `printReport` over the buckets: the widest `p(d.Min())`
and the widest `strconv.Itoa(d.Len())`, with Go's `len` counting bytes. -/
def reportWidths (lib : ReportLib) (dist : List (List Int)) : Nat × Nat :=
  dist.foldl (fun w d =>
    (if w.1 < (lib.p (lib.min d)).utf8ByteSize then (lib.p (lib.min d)).utf8ByteSize else w.1,
     if w.2 < (itoa d.length).utf8ByteSize then (itoa d.length).utf8ByteSize else w.2)) (0, 0)

/-- One histogram row: the `fmt.Fprintf(zli.Stdout, format, ...)` of the second
loop of `printReport`, for a bar of `r` symbols. -/
def reportRow (lib : ReportLib) (widthDur widthNum l : Nat) (h : List Int) (r : Nat) : String :=
  "    ≤ " ++ padLeft widthDur (lib.p (lib.max h)) ++ " ms → " ++
    padLeft widthNum (itoa h.length) ++ "  " ++ String.mk (List.replicate r '▬') ++ " " ++
    (perc l h.length).format1 ++ "%\n"

/-- The second loop of `printReport` over the buckets: the rows printed, and the
panic of `strings.Repeat` on a negative count if there is one. -/
def reportRows (lib : ReportLib) (widthDur widthNum l : Nat) :
    List (List Int) → List String × Option String
  | [] => ([], none)
  | h :: rest =>
    let r := barLen lib.implDep l h.length
    if r < 0 then ([], some "strings: negative Repeat count")
    else
      ((reportRow lib widthDur widthNum l h r.toNat) ::
          (reportRows lib widthDur widthNum l rest).1,
        (reportRows lib widthDur widthNum l rest).2)

/-- `printReport(times, wall, n, repeat)` with the package variable
`testWall`: what it writes to `zli.Stdout`, one string per call of `fmt`, and
the panic if it does not return. -/
def printReport (lib : ReportLib) (testWall : Int) (times : List Int) (wall n repeatN : Int) :
    List String × Option String :=
  let wall1 := if testWall > 0 then testWall else wall
  let head :=
    ["Ran " ++ itoa (wrapInt (n * repeatN)) ++ " queries in total"] ++
    (if repeatN > 1 then [" (" ++ itoa repeatN ++ " × " ++ itoa n ++ " parameters)"] else []) ++
    ["\n",
     "  Wall time: " ++ padLeft 6 (lib.p wall1) ++ " ms\n",
     "  Run time:  " ++ padLeft 6 (lib.p (lib.sum times)) ++ " ms\n",
     "  Min:       " ++ padLeft 6 (lib.p (lib.min times)) ++ " ms\n",
     "  Max:       " ++ padLeft 6 (lib.p (lib.max times)) ++ " ms\n",
     "  Median:    " ++ padLeft 6 (lib.p (lib.median times)) ++ " ms\n",
     "  Mean:      " ++ padLeft 6 (lib.p (lib.mean times)) ++ " ms\n",
     "\n  Distribution:\n"]
  let dist := lib.distrubute times 4
  let w := reportWidths lib dist
  let rows := reportRows lib w.1 w.2 times.length dist
  (head ++ rows.1, rows.2)

/-- The text before the first line break. -/
def firstLine (out : String) : String :=
  String.mk (out.data.takeWhile (fun c => c != '\n'))

/-! ## main -/

/-- The parsed command line (`zli.Flags`). -/
structure Flags where
  setup : List String
  query : String
  params : List String
  help : Bool
  /-- The first positional argument, `f.Shift()`. -/
  shift : String
  verbose : Int
  dbConnect : String
  warmup : Bool
  concurrent : Int
  repeatN : Int
  failfast : Bool

/-- Modelled from the spec: the Error Aggregator (`errors.Group` of the library
`zgo.at/errors`), a capacity-bounded collection of captured errors. -/
structure Group where
  maxSize : Nat
  errs : List String
  deriving DecidableEq, Repr

/-- Modelled from the spec: `errors.NewGroup(maxSize)`. -/
def NewGroup (maxSize : Nat) : Group := { maxSize := maxSize, errs := [] }

/-- Modelled from the spec: `Group.Append(err)` reports whether `err` is an
error; the error is stored unless the capacity is reached. -/
def Group.Append (g : Group) (err : Option String) : Group × Bool :=
  match err with
  | none => (g, false)
  | some e => (if g.errs.length < g.maxSize then { g with errs := g.errs ++ [e] } else g, true)

/-- Modelled from the spec: `Group.Len()`, the number of stored errors. -/
def Group.Len (g : Group) : Nat := g.errs.length

/-- The interface of the variable `met` of `main`: `zdb.MetricRecorder` with
`Reset` and `Queries`, over a store of type `σ`. -/
structure Recorder (σ : Type) where
  init : σ
  Record : σ → Int → String → Row → σ
  Reset : σ → σ
  Queries : σ → List (String × List Int)

/-- Modelled from the spec: the Duration Accumulator `zdb.NewMetricsMemory(0)`,
a mapping from the query to the durations recorded for it, created empty;
`Record` appends, `Reset` discards everything, `Queries` is the snapshot. -/
def MetricsMemory : Recorder (List (String × List Int)) where
  init := []
  Record := fun m d query _ =>
    if m.any (fun e => e.1 == query) then
      m.map (fun e => if e.1 == query then (e.1, e.2 ++ [d]) else e)
    else m ++ [(query, [d])]
  Reset := fun _ => []
  Queries := fun m => m

/-- The outcome of one `db.Exec`: the time it took and its error, if any. -/
structure ExecResult where
  elapsed : Int
  err : Option String

/-- What the benchmark needs from outside the repository. In `main` below the
tasks that `run.Run` starts run one at a time, in the order of submission, which
is the schedule of `-concurrent 1`; the executions are numbered in that order.
The interleavings of the tasks under a higher limit are those of the transition
system in the section on the benchmark under every schedule. -/
structure RunEnv where
  /-- The `k`-th `db.Exec(ctx, query, args...)` on the database. -/
  exec : Nat → String → Row → ExecResult
  /-- The `k`-th `time.Now()`, in nanoseconds. -/
  now : Nat → Int
  /-- Whether `zdb.NewMetricsDB` records the duration of a failed execution
  too. -/
  recordsFailures : Bool
  /-- The text of the error group, `errs.Error()`. -/
  groupError : List String → String
  /-- The package variable `usage`. -/
  usage : String
  /-- The package variable `testWall`. -/
  testWall : Int

/-- How the process ends. -/
inductive Exit where
  | code : Int → Exit
  | panic : String → Exit
  deriving DecidableEq, Repr

/-- The state that the tasks of `main` share. -/
structure RunState (σ : Type) where
  met : σ
  errs : Group
  /-- The number of executions done. -/
  execs : Nat
  stderr : List String

/-- The arguments of the call of `printReport` in `main`. -/
structure ReportArgs where
  times : List Int
  wall : Int
  n : Int
  repeatN : Int
  deriving DecidableEq, Repr

/-- What a run of `main` leaves behind. -/
structure MainResult (σ : Type) where
  /-- What was written to `zli.Stdout`, one string per call of `fmt`. -/
  stdout : List String
  /-- What was written to `zli.Stderr`: the errors surfaced. -/
  stderr : List String
  exit : Exit
  /-- What `readParams` printed with `fmt.Printf`. -/
  osStdout : List String
  /-- The effects of `connectDB`. -/
  effects : List Effect
  /-- The number of query executions done. -/
  execs : Nat
  met : σ
  errs : Group
  /-- The arguments handed to `printReport`, if it was called. -/
  reported : Option ReportArgs

/-- One task handed to `run.Run` in `runOnce`: execute the query through the
metrics wrapper, append the error, and with fail-fast leave the process through
`zli.F(err)`. Returns the new state and whether the process has exited. -/
def runTask {σ : Type} (env : RunEnv) (rec : Recorder σ) (fl : Flags) (args : Row)
    (st : RunState σ) : RunState σ × Bool :=
  let r := env.exec st.execs fl.query args
  let met1 := if r.err.isNone || env.recordsFailures then
      rec.Record st.met r.elapsed fl.query args else st.met
  let a := st.errs.Append r.err
  if a.2 && fl.failfast then
    ({ met := met1, errs := a.1, execs := st.execs + 1,
       stderr := st.stderr ++ [r.err.getD ""] }, true)
  else
    ({ met := met1, errs := a.1, execs := st.execs + 1, stderr := st.stderr }, false)

/-- The closure `runOnce` of `main`: one task for every row of `paramList`, in
order, until the process exits. -/
def runOnce {σ : Type} (env : RunEnv) (rec : Recorder σ) (fl : Flags) :
    List Row → RunState σ → RunState σ × Bool
  | [], st => (st, false)
  | args :: rest, st =>
    if (runTask env rec fl args st).2 then ((runTask env rec fl args st).1, true)
    else runOnce env rec fl rest (runTask env rec fl args st).1

/-- The loop `for n := 0; n < repeat.Int(); n++ { runOnce() }` of `main`, with
`rounds` iterations left. -/
def runRounds {σ : Type} (env : RunEnv) (rec : Recorder σ) (fl : Flags) (paramList : List Row) :
    Nat → RunState σ → RunState σ × Bool
  | 0, st => (st, false)
  | k + 1, st =>
    if (runOnce env rec fl paramList st).2 then ((runOnce env rec fl paramList st).1, true)
    else runRounds env rec fl paramList k (runOnce env rec fl paramList st).1

/-- The state at the start of the benchmark: the recorder as created, the error
group `errors.NewGroup(10)`, nothing executed. -/
def initState {σ : Type} (rec : Recorder σ) : RunState σ :=
  { met := rec.init, errs := NewGroup 10, execs := 0, stderr := [] }

/-- The measuring and reporting phases of `main`: the repeat loop, the wait, the
captured errors on the diagnostic stream, `printReport` on the first entry of
the metrics snapshot, and `zli.Exit(0)`. `started` is the start timestamp,
`clock` counts the calls of `time.Now()` so far. -/
def measure {σ : Type} (env : RunEnv) (lib : ReportLib) (rec : Recorder σ) (fl : Flags)
    (paramList : List Row) (st : RunState σ) (started : Int) (clock : Nat) : MainResult σ :=
  let r := runRounds env rec fl paramList fl.repeatN.toNat st
  if r.2 then
    { stdout := [], stderr := r.1.stderr, exit := Exit.code 1, osStdout := [], effects := [],
      execs := r.1.execs, met := r.1.met, errs := r.1.errs, reported := none }
  else
    let err1 := if r.1.errs.Len > 0 then r.1.stderr ++ [env.groupError r.1.errs.errs]
      else r.1.stderr
    match rec.Queries r.1.met with
    | [] =>
      { stdout := [], stderr := err1,
        exit := Exit.panic "runtime error: index out of range [0] with length 0",
        osStdout := [], effects := [], execs := r.1.execs, met := r.1.met, errs := r.1.errs,
        reported := none }
    | q :: _ =>
      let args : ReportArgs :=
        { times := q.2, wall := env.now clock - started, n := (paramList.length : Int),
          repeatN := fl.repeatN }
      let rep := printReport lib env.testWall args.times args.wall args.n args.repeatN
      { stdout := rep.1, stderr := err1,
        exit := match rep.2 with
          | some msg => Exit.panic msg
          | none => Exit.code 0,
        osStdout := [], effects := [], execs := r.1.execs, met := r.1.met, errs := r.1.errs,
        reported := some args }

/-- The benchmark of `main`, from the creation of the metrics recorder on, for
the rows `paramList` that `readParams` returned: the optional warm-up pass with
its wait and its check of the captured errors, the new start timestamp and the
reset, then `measure`. -/
def bench {σ : Type} (env : RunEnv) (lib : ReportLib) (rec : Recorder σ) (fl : Flags)
    (paramList : List Row) : MainResult σ :=
  let st0 : RunState σ := initState rec
  let started := env.now 0
  if fl.warmup then
    let r := runOnce env rec fl paramList st0
    if r.2 then
      { stdout := [], stderr := r.1.stderr, exit := Exit.code 1, osStdout := [], effects := [],
        execs := r.1.execs, met := r.1.met, errs := r.1.errs, reported := none }
    else if r.1.errs.Len > 0 then
      { stdout := [], stderr := r.1.stderr ++ [env.groupError r.1.errs.errs],
        exit := Exit.code 1, osStdout := [], effects := [], execs := r.1.execs, met := r.1.met,
        errs := r.1.errs, reported := none }
    else
      measure env lib rec fl paramList { r.1 with met := rec.Reset r.1.met } (env.now 1) 2
  else
    measure env lib rec fl paramList st0 started 1

/-- A run that ends before the benchmark starts. -/
def earlyExit {σ : Type} (rec : Recorder σ) (out err printed : List String)
    (eff : List Effect) (exit : Exit) : MainResult σ :=
  { stdout := out, stderr := err, exit := exit, osStdout := printed, effects := eff,
    execs := 0, met := rec.init, errs := NewGroup 10, reported := none }

/-- `main()` after `f.Parse()` succeeded, with `rec` the recorder in use
(`zdb.NewMetricsMemory(0)`, or the package variable `testHook` when set). The
logging of `zdb.NewLogDB` to `os.Stderr` is left out, and the limiter
`zsync.NewAtMost` is taken with a limit of at least 1. -/
def main {File σ : Type} (penv : ParamEnv File) (denv : DBEnv) (env : RunEnv)
    (lib : ReportLib) (rec : Recorder σ) (fl : Flags) : MainResult σ :=
  if fl.help || fl.shift == "help" then
    earlyExit rec [env.usage] [] [] [] (Exit.code 0)
  else if fl.query == "" then
    earlyExit rec [] ["-query must be set"] [] [] (Exit.code 1)
  else
    let rp := readParams penv fl.query fl.params (decide (fl.verbose ≥ 1))
    match rp.2 with
    | Outcome.err e => earlyExit rec [] [e] rp.1 [] (Exit.code 1)
    | Outcome.panic msg => earlyExit rec [] [] rp.1 [] (Exit.panic msg)
    | Outcome.ok paramList =>
      let db := connectDB denv fl.dbConnect fl.setup (decide (fl.verbose ≥ 1))
      match db.2 with
      | Outcome.err e => earlyExit rec [] [e] rp.1 db.1 (Exit.code 1)
      | Outcome.panic msg => earlyExit rec [] [] rp.1 db.1 (Exit.panic msg)
      | Outcome.ok _ =>
        { bench env lib rec fl paramList with osStdout := rp.1, effects := db.1 }

/-- The command line asks for a benchmark with a concurrency limit of at least
1, `readParams` returns the rows `paramList` and `connectDB` returns the
database: `main` reaches the benchmark. -/
def Starts {File : Type} (penv : ParamEnv File) (denv : DBEnv) (fl : Flags)
    (paramList : List Row) : Prop :=
  fl.help = false ∧ fl.shift ≠ "help" ∧ fl.query ≠ "" ∧ 1 ≤ fl.concurrent ∧
  (readParams penv fl.query fl.params (decide (fl.verbose ≥ 1))).2 = Outcome.ok paramList ∧
  (connectDB denv fl.dbConnect fl.setup (decide (fl.verbose ≥ 1))).2 = Outcome.ok ()

/-- The rows of the tasks that `main` submits when nothing ends the run early, in
the order of submission: the warm-up pass if enabled, then `repeat` rounds. -/
def taskRows (fl : Flags) (paramList : List Row) : List Row :=
  (if fl.warmup then paramList else []) ++
    (List.replicate fl.repeatN.toNat paramList).flatten

/-- The number of durations in a snapshot of the metrics store. -/
def totalSamples (qs : List (String × List Int)) : Nat :=
  (qs.map (fun q => q.2.length)).sum

/-! ## The benchmark under every schedule

`run.Run` starts every task in a goroutine of its own, so with `-concurrent`
above 1 the steps of several tasks interleave. Here the benchmark of `main` is
a transition system: a state of the process, and the atomic steps that the main
goroutine and the tasks can take. A run is any sequence of enabled steps, and
the outcome of each `db.Exec` comes with the step in which it returns, so a
statement about all runs holds for every schedule, every limit and every
behaviour of the database. -/

/-- Where a task started by `run.Run` is. -/
inductive TaskPhase where
  /-- `db.Exec` is running. -/
  | running : TaskPhase
  /-- `db.Exec` has returned, with this error if any; `errs.Append` is next. -/
  | returned : Option String → TaskPhase
  /-- `errs.Append(err)` was true and fail-fast is on; `zli.F(err)` is next. -/
  | fatal : String → TaskPhase
  /-- `zli.F(err)` has printed the error; the exit of the process is next. -/
  | exiting : TaskPhase
  /-- The task has returned and freed its slot. -/
  | done : TaskPhase
  deriving DecidableEq, Repr

/-- The task holds an error that fail-fast turns into the exit of the process: it
never finishes. -/
def TaskPhase.failing : TaskPhase → Bool
  | TaskPhase.returned (some _) => true
  | TaskPhase.fatal _ => true
  | TaskPhase.exiting => true
  | _ => false

/-- The steps that a task still has before it is done or has ended the process,
at most. -/
def TaskPhase.weight : TaskPhase → Nat
  | TaskPhase.running => 4
  | TaskPhase.returned _ => 3
  | TaskPhase.fatal _ => 2
  | TaskPhase.exiting => 1
  | TaskPhase.done => 0

/-- A task started by `run.Run`: the row it executes and where it is. The tasks
are numbered in the order of submission. -/
structure Task where
  args : Row
  phase : TaskPhase
  deriving DecidableEq, Repr

/-- Where the main goroutine is: in the warm-up pass or in the repeat loop, with
the rows for which it has still to call `run.Run` before it calls `run.Wait`. -/
inductive MainPc where
  | warmup : List Row → MainPc
  | measuring : List Row → MainPc
  deriving DecidableEq, Repr

/-- The state of the process during the benchmark. -/
structure Proc (σ : Type) where
  pc : MainPc
  /-- The tasks submitted so far, in the order of submission. -/
  tasks : List Task
  met : σ
  errs : Group
  /-- The variable `started`. -/
  started : Int
  /-- The number of calls of `time.Now()` so far. -/
  clock : Nat
  stdout : List String
  stderr : List String
  /-- How the process has ended, if it has. -/
  exit : Option Exit
  /-- The arguments handed to `printReport`, if it was called. -/
  reported : Option ReportArgs
  /-- The number of executions that have returned an error so far. -/
  failures : Nat

/-- An atomic step of the process. -/
inductive Action where
  /-- The main goroutine: `run.Run` starts the task for the next row. -/
  | submit : Action
  /-- The main goroutine: `run.Wait()` returns and `main` goes on to its next
  `run.Run` or to its end. -/
  | wait : Action
  /-- The task with this number: `db.Exec` returns, with this outcome. -/
  | execReturns : Nat → ExecResult → Action
  /-- The task with this number: `errs.Append(err)` and the test of fail-fast. -/
  | append : Nat → Action
  /-- The task with this number: `zli.F(err)` prints the error. -/
  | print : Nat → Action
  /-- The task with this number: `zli.F(err)` exits the process. -/
  | exit : Nat → Action

/-- The number of tasks that hold a slot of the limiter. -/
def inFlight (ts : List Task) : Nat :=
  ts.countP (fun t => t.phase != TaskPhase.done)

/-- The state when the benchmark starts: `started = time.Now()`, no task, and
the main goroutine before the warm-up pass if enabled, else before the repeat
loop. -/
def initProc {σ : Type} (env : RunEnv) (rec : Recorder σ) (fl : Flags) (paramList : List Row) :
    Proc σ :=
  { pc := if fl.warmup then MainPc.warmup paramList
      else MainPc.measuring (List.replicate fl.repeatN.toNat paramList).flatten,
    tasks := [], met := rec.init, errs := NewGroup 10, started := env.now 0, clock := 1,
    stdout := [], stderr := [], exit := none, reported := none, failures := 0 }

/-- Modelled from the spec: `run.Run(task)` of the Concurrency Limiter
`zsync.NewAtMost(concurrent)` starts the task for the next row when fewer than
`concurrent` tasks are running, and blocks otherwise. -/
def stepSubmit {σ : Type} (fl : Flags) (s : Proc σ) : Option (Proc σ) :=
  if inFlight s.tasks < fl.concurrent.toNat then
    match s.pc with
    | MainPc.warmup (args :: rest) =>
      some { s with pc := MainPc.warmup rest,
                    tasks := s.tasks ++ [{ args := args, phase := TaskPhase.running }] }
    | MainPc.measuring (args :: rest) =>
      some { s with pc := MainPc.measuring rest,
                    tasks := s.tasks ++ [{ args := args, phase := TaskPhase.running }] }
    | _ => none
  else none

/-- After the warm-up pass `run.Wait()` returns when every task is done; then
`main` ends the process with `zli.F(errs)` if an error was captured, and
otherwise takes the new start timestamp, resets the recorder and enters the
repeat loop. After the repeat loop `run.Wait()` returns when every task is
done; then `main` prints the captured errors, calls `printReport` on the first
entry of the metrics snapshot and exits. -/
def stepWait {σ : Type} (env : RunEnv) (lib : ReportLib) (rec : Recorder σ) (fl : Flags)
    (paramList : List Row) (s : Proc σ) : Option (Proc σ) :=
  if inFlight s.tasks = 0 then
    match s.pc with
    | MainPc.warmup [] =>
      if s.errs.Len > 0 then
        some { s with stderr := s.stderr ++ [env.groupError s.errs.errs],
                      exit := some (Exit.code 1) }
      else
        some { s with started := env.now s.clock, clock := s.clock + 1, met := rec.Reset s.met,
                      pc := MainPc.measuring (List.replicate fl.repeatN.toNat paramList).flatten }
    | MainPc.measuring [] =>
      let err1 := if s.errs.Len > 0 then s.stderr ++ [env.groupError s.errs.errs] else s.stderr
      match rec.Queries s.met with
      | [] =>
        some { s with stderr := err1,
                      exit := some (Exit.panic "runtime error: index out of range [0] with length 0") }
      | q :: _ =>
        let args : ReportArgs :=
          { times := q.2, wall := env.now s.clock - s.started, n := (paramList.length : Int),
            repeatN := fl.repeatN }
        let rep := printReport lib env.testWall args.times args.wall args.n args.repeatN
        some { s with stdout := rep.1, stderr := err1, clock := s.clock + 1,
                      exit := some (match rep.2 with
                        | some msg => Exit.panic msg
                        | none => Exit.code 0),
                      reported := some args }
    | _ => none
  else none

/-- The `db.Exec` of task `j` returns with outcome `r`: the metrics wrapper has
recorded the duration, and the task holds the error. -/
def stepExec {σ : Type} (env : RunEnv) (rec : Recorder σ) (fl : Flags) (j : Nat) (r : ExecResult)
    (s : Proc σ) : Option (Proc σ) :=
  match s.tasks[j]? with
  | some t =>
    if t.phase = TaskPhase.running then
      some { s with
        met := if r.err.isNone || env.recordsFailures then
            rec.Record s.met r.elapsed fl.query t.args else s.met,
        tasks := s.tasks.set j { t with phase := TaskPhase.returned r.err },
        failures := s.failures + (if r.err.isSome then 1 else 0) }
    else none
  | none => none

/-- Task `j` runs `errs.Append(err) && failfast.Bool()`: the error is captured;
with fail-fast the task goes on to `zli.F(err)`, otherwise it is done. -/
def stepAppend {σ : Type} (fl : Flags) (j : Nat) (s : Proc σ) : Option (Proc σ) :=
  match s.tasks[j]? with
  | some t =>
    match t.phase with
    | TaskPhase.returned err =>
      if (s.errs.Append err).2 && fl.failfast then
        some { s with errs := (s.errs.Append err).1,
                      tasks := s.tasks.set j { t with phase := TaskPhase.fatal (err.getD "") } }
      else
        some { s with errs := (s.errs.Append err).1,
                      tasks := s.tasks.set j { t with phase := TaskPhase.done } }
    | _ => none
  | none => none

/-- Task `j` is in `zli.F(err)`: the error is printed to `zli.Stderr`. -/
def stepPrint {σ : Type} (j : Nat) (s : Proc σ) : Option (Proc σ) :=
  match s.tasks[j]? with
  | some t =>
    match t.phase with
    | TaskPhase.fatal e =>
      some { s with stderr := s.stderr ++ [e],
                    tasks := s.tasks.set j { t with phase := TaskPhase.exiting } }
    | _ => none
  | none => none

/-- Task `j` is in `zli.F(err)`: the process exits with code 1. -/
def stepExit {σ : Type} (j : Nat) (s : Proc σ) : Option (Proc σ) :=
  match s.tasks[j]? with
  | some t =>
    match t.phase with
    | TaskPhase.exiting => some { s with exit := some (Exit.code 1) }
    | _ => none
  | none => none

/-- One step of the process: the state after the action, if the action is
enabled. Nothing is enabled once the process has exited. -/
def step {σ : Type} (env : RunEnv) (lib : ReportLib) (rec : Recorder σ) (fl : Flags)
    (paramList : List Row) (a : Action) (s : Proc σ) : Option (Proc σ) :=
  if s.exit.isSome then none
  else
    match a with
    | Action.submit => stepSubmit fl s
    | Action.wait => stepWait env lib rec fl paramList s
    | Action.execReturns j r => stepExec env rec fl j r s
    | Action.append j => stepAppend fl j s
    | Action.print j => stepPrint j s
    | Action.exit j => stepExit j s

/-- A run: the state after the actions, in order, if each is enabled when its
turn comes. -/
def runActions {σ : Type} (env : RunEnv) (lib : ReportLib) (rec : Recorder σ) (fl : Flags)
    (paramList : List Row) : List Action → Proc σ → Option (Proc σ)
  | [], s => some s
  | a :: rest, s =>
    match step env lib rec fl paramList a s with
    | some s1 => runActions env lib rec fl paramList rest s1
    | none => none

/-- The task is inside `zli.F(err)`. -/
def TaskPhase.inFatal : TaskPhase → Bool
  | TaskPhase.fatal _ => true
  | TaskPhase.exiting => true
  | _ => false

/-- What holds throughout a run with fail-fast. The error group has its
capacity of 10 and the limiter its bound. A task that holds an error never
finishes, so the executions that have returned an error are as many as the
tasks that hold one; every captured error has its task inside `zli.F(err)`, and
a task is there only after an error was captured. Nothing is reported before
the process exits, and once an execution has returned an error nothing is
reported at all and the process has exited with code 1, after an error was
captured, if it has exited. -/
@[reducible] def FailFastInv {σ : Type} (fl : Flags) (s : Proc σ) : Prop :=
  s.errs.maxSize = 10 ∧
  inFlight s.tasks ≤ fl.concurrent.toNat ∧
  s.failures = s.tasks.countP (fun t => t.phase.failing) ∧
  s.errs.Len ≤ s.tasks.countP (fun t => t.phase.inFatal) ∧
  (0 < s.tasks.countP (fun t => t.phase.inFatal) → 1 ≤ s.errs.Len) ∧
  (s.exit = none → s.reported = none ∧ s.stdout = []) ∧
  (0 < s.failures →
    s.reported = none ∧ s.stdout = [] ∧
    (s.exit = none ∨ (s.exit = some (Exit.code 1) ∧ 1 ≤ s.errs.Len)))

/-- The state that the tasks share in `runOnce` and a state of the process
agree: the same store, captured errors and error output, as many tasks as
executions, every task done, nothing reported and the process running. -/
@[reducible] def Agrees {σ : Type} (st : RunState σ) (s : Proc σ) : Prop :=
  s.met = st.met ∧ s.errs = st.errs ∧ s.stderr = st.stderr ∧ s.tasks.length = st.execs ∧
  inFlight s.tasks = 0 ∧ s.stdout = [] ∧ s.reported = none ∧ s.exit = none

/-- The rows for which the main goroutine has still to start a task, now or
after the warm-up pass. -/
def rowsLeft (fl : Flags) (paramList : List Row) : MainPc → Nat
  | MainPc.warmup left => left.length + fl.repeatN.toNat * paramList.length
  | MainPc.measuring left => left.length

/-- The returns of `run.Wait()` that the main goroutine has still before it. -/
def waitsLeft : MainPc → Nat
  | MainPc.warmup _ => 2
  | MainPc.measuring _ => 1

/-- A bound on the number of steps that the process can still take. -/
def stepsLeft {σ : Type} (fl : Flags) (paramList : List Row) (s : Proc σ) : Nat :=
  if s.exit.isSome then 0
  else 1 + 5 * rowsLeft fl paramList s.pc + waitsLeft s.pc +
    (s.tasks.map (fun t => t.phase.weight)).sum

/-! ## Worlds for examples

Every theorem below is proved for all environments; these concrete ones serve
to evaluate `main` on examples. -/

/-- A stand-in for the library `ztime`: durations print as whole milliseconds
and `Distrubute` returns a single bucket. -/
def sampleLib : ReportLib where
  p := fun d => itoa (d / 1000000)
  sum := fun l => l.sum
  min := fun l => l.foldl (fun a b => if b < a then b else a) (l.headD 0)
  max := fun l => l.foldl (fun a b => if a < b then b else a) (l.headD 0)
  median := fun l => l.headD 0
  mean := fun l => if l.length = 0 then 0 else l.sum / l.length
  distrubute := fun l _ => [l]
  implDep := -9223372036854775808

/-- A database on which every execution takes 1 ms and the executions numbered
in `failing` return an error; the metrics wrapper records the duration of a
failed execution too. -/
def sampleRun (failing : List Nat) : RunEnv where
  exec := fun k _ _ =>
    { elapsed := 1000000, err := if failing.contains k then some "no such table" else none }
  now := fun k => 1000000 * (k : Int)
  recordsFailures := true
  groupError := fun es => String.intercalate "\n" es
  usage := "sqlbench runs benchmarks on an SQL database.\n"
  testWall := 0

/-- A command line `-query "select ?" -params params.csv -repeat <repeatN>` with
or without `-warmup` and `-failfast`. -/
def sampleFlags (warmup failfast : Bool) (repeatN : Int) : Flags where
  setup := []
  query := "select ?"
  params := ["params.csv"]
  help := false
  shift := ""
  verbose := 0
  dbConnect := "sqlite+test.sqlite3"
  warmup := warmup
  concurrent := 1
  repeatN := repeatN
  failfast := failfast

/-- The command line of `sampleFlags` without warm-up and with one round, with
`-concurrent 2`. -/
def raceFlags (failfast : Bool) : Flags :=
  { sampleFlags false failfast 1 with concurrent := 2 }

/-- An execution of 1 ms that returns this error. -/
def failed (e : String) : ExecResult := { elapsed := 1000000, err := some e }

/-- An execution of 1 ms that returns no error. -/
def succeeded : ExecResult := { elapsed := 1000000, err := none }

/-- A schedule for two rows under `-concurrent 2`: both tasks are started, both
executions return an error, and both errors are captured before the first task
ends the process. -/
def raceSchedule : List Action :=
  [Action.submit, Action.submit, Action.execReturns 0 (failed "h1 is down"),
    Action.execReturns 1 (failed "h2 is down"), Action.append 0, Action.append 1,
    Action.print 0, Action.exit 0]

/-- A schedule for two rows under `-concurrent 2`: both tasks are started, the
second execution succeeds, the first returns an error, and its task ends the
process. -/
def lateSchedule : List Action :=
  [Action.submit, Action.submit, Action.execReturns 1 succeeded,
    Action.execReturns 0 (failed "h1 is down"), Action.append 1, Action.append 0,
    Action.print 0, Action.exit 0]

/-- The state of the process after `raceSchedule`. -/
def raceEnd : Proc (List (String × List Int)) :=
  { pc := MainPc.measuring [],
    tasks := [{ args := ["h1"], phase := TaskPhase.exiting },
      { args := ["h2"], phase := TaskPhase.fatal "h2 is down" }],
    met := [("select ?", [1000000, 1000000])],
    errs := { maxSize := 10, errs := ["h1 is down", "h2 is down"] },
    started := 0, clock := 1, stdout := [], stderr := ["h1 is down"],
    exit := some (Exit.code 1), reported := none, failures := 2 }

/-- The state of the process after `lateSchedule`. -/
def lateEnd : Proc (List (String × List Int)) :=
  { pc := MainPc.measuring [],
    tasks := [{ args := ["h1"], phase := TaskPhase.exiting },
      { args := ["h2"], phase := TaskPhase.done }],
    met := [("select ?", [1000000, 1000000])],
    errs := { maxSize := 10, errs := ["h1 is down"] },
    started := 0, clock := 1, stdout := [], stderr := ["h1 is down"],
    exit := some (Exit.code 1), reported := none, failures := 1 }

/-! ## Theorems about readParams -/

theorem foldl_snoc_eq {α : Type} (l acc : List α) :
    l.foldl (fun row r2 => row ++ [r2]) acc = acc ++ l := by
  induction l generalizing acc with
  | nil => simp
  | cons a l ih => simp [ih]

theorem convertRows_eq (recs : List (List String)) : convertRows recs = recs := by
  have h : ∀ (l acc : List (List String)),
      l.foldl (fun rows r => rows ++ [r.foldl (fun row r2 => row ++ [r2]) []]) acc
        = acc ++ l := by
    intro l
    induction l with
    | nil => simp
    | cons a l ih => intro acc; simp [ih, foldl_snoc_eq]
  simpa [convertRows] using h recs []

theorem readParamsLoop_tail {File : Type} (env : ParamEnv File) (verbose : Bool)
    (params : List String) (files : List (List (List String))) :
    ∀ (i : Nat) (all : List Row) (out : List String),
      ParsesAs env i params files → (∀ f ∈ files, f ≠ []) →
      (readParamsLoop env verbose i params all out).2
        = Outcome.ok (all ++ (files.map List.tail).flatten) := by
  induction params generalizing files with
  | nil =>
    intro i all out hp _
    cases files with
    | nil => simp [readParamsLoop]
    | cons f fs => simp [ParsesAs] at hp
  | cons p ps ih =>
    intro i all out hp hne
    cases files with
    | nil => simp [ParsesAs] at hp
    | cons f fs =>
      obtain ⟨⟨fp, h1, h2⟩, hrest⟩ := hp
      cases f with
      | nil => exact absurd rfl (hne [] (by simp))
      | cons hd tl =>
        have hne2 : ∀ g ∈ fs, g ≠ [] := fun g hg => hne g (by simp [hg])
        simp only [readParamsLoop, h1, h2, sliceFrom1, convertRows_eq]
        rw [ih fs (i + 1) _ _ hrest hne2]
        simp

theorem sum_length_tail (files : List (List (List String))) (hne : ∀ f ∈ files, f ≠ []) :
    ((files.map List.tail).flatten).length + files.length = (files.flatten).length := by
  induction files with
  | nil => simp
  | cons f fs ih =>
    have hf : f ≠ [] := hne f (by simp)
    have h2 := ih (fun g hg => hne g (by simp [hg]))
    obtain ⟨a, tl, rfl⟩ := List.exists_cons_of_ne_nil hf
    simp only [List.map_cons, List.flatten_cons, List.length_append, List.tail_cons,
      List.length_cons] at *
    omega

/-- C8 (as stated, refuted): a parameter file with the two records `host` and
`h1` parses as CSV, and `readParams` returns the single row `h1`, not one row
for each of the two records. -/
theorem readParams_drops_first_record :
    ParsesAs (paramEnvOf [[["host"], ["h1"]]]) 0 ["params.csv"] [[["host"], ["h1"]]] ∧
    (readParams (paramEnvOf [[["host"], ["h1"]]]) "select ?" ["params.csv"] false).2
      = Outcome.ok [["h1"]] ∧
    (readParams (paramEnvOf [[["host"], ["h1"]]]) "select ?" ["params.csv"] false).2
      ≠ Outcome.ok ([[["host"], ["h1"]]].flatten) := by
  refine ⟨?_, ?_, ?_⟩
  · simp [ParsesAs, paramEnvOf]
  · simp [readParams, readParamsLoop, paramEnvOf, sliceFrom1, convertRows_eq]
  · simp [readParams, readParamsLoop, paramEnvOf, sliceFrom1, convertRows_eq]

/-- C8 (amended): when every parameter file opens, parses as CSV and holds at
least one record, `readParams` returns, for the files in the order of the
flags, one row for every record but the first of each file, in file order, each
row holding that record's fields in column order; so the number of rows is the
total number of records minus the number of files. -/
theorem readParams_rows {File : Type} (env : ParamEnv File) (query : String)
    (params : List String) (files : List (List (List String))) (verbose : Bool)
    (hparse : ParsesAs env 0 params files) (hne : ∀ f ∈ files, f ≠ []) :
    (readParams env query params verbose).2 = Outcome.ok ((files.map List.tail).flatten) ∧
    ((files.map List.tail).flatten).length + files.length = (files.flatten).length := by
  refine ⟨?_, sum_length_tail files hne⟩
  have h := readParamsLoop_tail env verbose params files 0 [] [] hparse hne
  simpa [readParams] using h

theorem readParams_rows_witness :
    (readParams (paramEnvOf [[["host"], ["h1"], ["h2"]], [["host"], ["h3"]]]) "select ?"
        ["a.csv", "b.csv"] true).2 = Outcome.ok [["h1"], ["h2"], ["h3"]] ∧
    ([["h1"], ["h2"], ["h3"]] : List Row).length + 2 = 5 :=
  readParams_rows (paramEnvOf [[["host"], ["h1"], ["h2"]], [["host"], ["h3"]]]) "select ?"
    ["a.csv", "b.csv"] [[["host"], ["h1"], ["h2"]], [["host"], ["h3"]]] true
    (by simp [ParsesAs, paramEnvOf]) (by simp)

/-- C10 (the code at the failing input): a parameter file that parses as CSV
with zero records makes `readParams` panic on `cr[1:]` instead of returning a
row list. -/
theorem readParams_empty_file_panics :
    ParsesAs (paramEnvOf [[]]) 0 ["empty.csv"] [[]] ∧
    readParams (paramEnvOf [[]]) "select ?" ["empty.csv"] false
      = ([], Outcome.panic "runtime error: slice bounds out of range [1:0]") := by
  refine ⟨?_, ?_⟩
  · simp [ParsesAs, paramEnvOf]
  · simp [readParams, readParamsLoop, paramEnvOf, sliceFrom1]


/-! ## Theorems about connectDB -/

theorem cutChars_colon_none (l : List Char) (h : ':' ∉ l) : cutChars [':'] l = none := by
  induction l with
  | nil => simp [cutChars]
  | cons c cs ih =>
    have hc : c ≠ ':' := fun hc => h (by simp [hc])
    have hcs : ':' ∉ cs := fun hcs => h (by simp [hcs])
    simp [cutChars, List.isPrefixOf, hc, Ne.symm hc, ih hcs]

theorem cutChars_colon_last (a : List Char) (h : ':' ∉ a) :
    cutChars [':'] (a ++ [':']) = some (a, []) := by
  induction a with
  | nil => simp [cutChars, List.isPrefixOf]
  | cons c cs ih =>
    have hc : c ≠ ':' := fun hc => h (by simp [hc])
    have hcs : ':' ∉ cs := fun hcs => h (by simp [hcs])
    simp [cutChars, List.isPrefixOf, hc, Ne.symm hc, ih hcs]

/-- A `-setup` value without a usable file part: no `:` in it, or nothing
after its first `:`. -/
theorem split2_file_empty (s : String)
    (h : ':' ∉ s.data ∨ ∃ a, ':' ∉ a ∧ s.data = a ++ [':']) : (Split2 s ":").2 = "" := by
  have hd : (":" : String).data = [':'] := rfl
  rcases h with h | ⟨a, ha, hs⟩
  · simp [Split2, hd, cutChars_colon_none _ h]
  · simp [Split2, hd, hs, cutChars_colon_last _ ha]

theorem setupLoop_append (env : DBEnv) (verbose : Bool) (pre post : List String) :
    ∀ tr : List Effect, setupLoop env verbose (pre ++ post) tr =
      match (setupLoop env verbose pre tr).2 with
      | Outcome.ok _ => setupLoop env verbose post (setupLoop env verbose pre tr).1
      | _ => setupLoop env verbose pre tr := by
  induction pre with
  | nil => intro tr; simp [setupLoop]
  | cons s rest ih =>
    intro tr
    simp only [List.cons_append, setupLoop]
    cases h : (setupOne env verbose s tr).2 with
    | some e => simp
    | none => simp only []; exact ih _

theorem insertRows_eq (tbl : String) (rows : List (List String)) :
    insertRows tbl rows = rows.map (fun row => Effect.bulkValues tbl row) := by
  simp [insertRows, foldl_snoc_eq]

theorem connectDB_append_ok (env : DBEnv) (c : String) (pre post : List String)
    (verbose : Bool) (h : (connectDB env c pre verbose).2 = Outcome.ok ()) :
    connectDB env c (pre ++ post) verbose =
      setupLoop env verbose post (connectDB env c pre verbose).1 := by
  unfold connectDB at h ⊢
  cases hc : env.connect c with
  | some e => simp [hc] at h
  | none =>
    simp only [hc] at h ⊢
    rw [setupLoop_append, h]

theorem connectDB_append_err (env : DBEnv) (c : String) (pre post : List String)
    (verbose : Bool) (e : String) (h : (connectDB env c pre verbose).2 = Outcome.err e) :
    connectDB env c (pre ++ post) verbose = connectDB env c pre verbose := by
  unfold connectDB at h ⊢
  cases hc : env.connect c with
  | some e => rfl
  | none =>
    simp only [hc] at h ⊢
    rw [setupLoop_append, h]

/-- What `connectDB` returns for one more value `s` after values that
succeeded with the effects `tr`. -/
theorem connectDB_snoc (env : DBEnv) (c : String) (pre : List String) (s : String)
    (verbose : Bool) (tr : List Effect)
    (h : connectDB env c pre verbose = (tr, Outcome.ok ())) :
    connectDB env c (pre ++ [s]) verbose =
      (tr ++ (setupOne env verbose s tr).1,
        match (setupOne env verbose s tr).2 with
        | some e => Outcome.err e
        | none => Outcome.ok ()) := by
  have h2 : (connectDB env c pre verbose).2 = Outcome.ok () := by rw [h]
  rw [connectDB_append_ok env c pre [s] verbose h2, h]
  simp only [setupLoop]
  cases (setupOne env verbose s tr).2 <;> rfl

/-- C9: `connectDB` processes the `-setup` values in the order given and stops at
the first error. After values that succeeded, a value whose extension is not
`csv` is read and its content is run as SQL unchanged, and nothing else is done
for it; a value whose extension is `csv` is treated as CSV data: without a `:`
or with nothing after its first `:`, which is when `zstring.Split2` yields an
empty file part, it makes `connectDB` return the error "wrong value for
-setup" with no effect at all for that value, and otherwise the file after the
first `:` is opened, its first record names the columns of the
table before the `:`, every further record is inserted into that table, and the
insert is finished. Every error ends `connectDB` with the effects done so
far. -/
theorem connectDB_setup (env : DBEnv) (dbConnect : String) (verbose : Bool) :
    (∀ (setup : List String) (e : String), env.connect dbConnect = some e →
      connectDB env dbConnect setup verbose =
        ([Effect.connect dbConnect], Outcome.err e)) ∧
    (env.connect dbConnect = none →
      connectDB env dbConnect [] verbose = ([Effect.connect dbConnect], Outcome.ok ())) ∧
    (∀ (pre post : List String) (tr : List Effect) (e : String),
      connectDB env dbConnect pre verbose = (tr, Outcome.err e) →
      connectDB env dbConnect (pre ++ post) verbose = (tr, Outcome.err e)) ∧
    (∀ (pre : List String) (s : String) (tr : List Effect),
      connectDB env dbConnect pre verbose = (tr, Outcome.ok ()) →
      ((SplitExt s).2 ≠ "csv" →
        (∀ e, env.readFile s = Except.error e →
          connectDB env dbConnect (pre ++ [s]) verbose =
            (tr ++ sqlNotice env verbose s ++ [Effect.readFile s], Outcome.err e)) ∧
        (∀ d, env.readFile s = Except.ok d →
          connectDB env dbConnect (pre ++ [s]) verbose =
            match env.exec (tr ++ sqlNotice env verbose s ++ [Effect.readFile s]) d with
            | some e =>
              (tr ++ sqlNotice env verbose s ++ [Effect.readFile s, Effect.exec d],
                Outcome.err ("running " ++ env.quote s ++ ": " ++ e))
            | none =>
              (tr ++ sqlNotice env verbose s ++ [Effect.readFile s, Effect.exec d] ++
                okNotice verbose, Outcome.ok ()))) ∧
      ((SplitExt s).2 = "csv" →
        ((':' ∉ s.data ∨ (∃ a, ':' ∉ a ∧ s.data = a ++ [':']) ∨ (Split2 s ":").2 = "") →
          connectDB env dbConnect (pre ++ [s]) verbose =
            (tr, Outcome.err ("wrong value for -setup: " ++ env.quote s ++
              ": csv files need to be as \x27tablename:file.csv\x27"))) ∧
        ((Split2 s ":").2 ≠ "" →
          (∀ e, env.openCsv (Split2 s ":").2 = Except.error e →
            connectDB env dbConnect (pre ++ [s]) verbose =
              (tr ++ csvNotice env verbose (Split2 s ":").2 (Split2 s ":").1 ++
                [Effect.openFile (Split2 s ":").2], Outcome.err e)) ∧
          (∀ cs, env.openCsv (Split2 s ":").2 = Except.ok cs →
            connectDB env dbConnect (pre ++ [s]) verbose =
              match cs.records with
              | [] =>
                (tr ++ csvNotice env verbose (Split2 s ":").2 (Split2 s ":").1 ++
                  [Effect.openFile (Split2 s ":").2], Outcome.err (cs.ending.getD "EOF"))
              | header :: rows =>
                match cs.ending with
                | some e =>
                  (tr ++ csvNotice env verbose (Split2 s ":").2 (Split2 s ":").1 ++
                    [Effect.openFile (Split2 s ":").2,
                      Effect.newBulkInsert (Split2 s ":").1 header] ++
                    rows.map (fun row => Effect.bulkValues (Split2 s ":").1 row),
                    Outcome.err e)
                | none =>
                  match env.bulkFinish
                    (tr ++ csvNotice env verbose (Split2 s ":").2 (Split2 s ":").1 ++
                      [Effect.openFile (Split2 s ":").2,
                        Effect.newBulkInsert (Split2 s ":").1 header] ++
                      rows.map (fun row => Effect.bulkValues (Split2 s ":").1 row)) with
                  | some e =>
                    (tr ++ csvNotice env verbose (Split2 s ":").2 (Split2 s ":").1 ++
                      [Effect.openFile (Split2 s ":").2,
                        Effect.newBulkInsert (Split2 s ":").1 header] ++
                      rows.map (fun row => Effect.bulkValues (Split2 s ":").1 row) ++
                      [Effect.bulkFinish (Split2 s ":").1], Outcome.err e)
                  | none =>
                    (tr ++ csvNotice env verbose (Split2 s ":").2 (Split2 s ":").1 ++
                      [Effect.openFile (Split2 s ":").2,
                        Effect.newBulkInsert (Split2 s ":").1 header] ++
                      rows.map (fun row => Effect.bulkValues (Split2 s ":").1 row) ++
                      [Effect.bulkFinish (Split2 s ":").1] ++ okNotice verbose,
                      Outcome.ok ()))))) := by
  refine ⟨?_, ?_, ?_, ?_⟩
  · intro setup e hc
    simp [connectDB, hc]
  · intro hc
    simp [connectDB, hc, setupLoop]
  · intro pre post tr e h
    have h2 : (connectDB env dbConnect pre verbose).2 = Outcome.err e := by rw [h]
    rw [connectDB_append_err env dbConnect pre post verbose e h2, h]
  · intro pre s tr h
    have hsnoc := connectDB_snoc env dbConnect pre s verbose tr h
    refine ⟨?_, ?_⟩
    · intro hext
      refine ⟨?_, ?_⟩
      · intro e hr
        rw [hsnoc]
        simp [setupOne, hext, setupSQL, hr, sqlNotice, List.append_assoc]
      · intro d hr
        rw [hsnoc]
        simp only [setupOne, hext, if_false, setupSQL, hr, sqlNotice, okNotice]
        cases hx : env.exec (tr ++ (if verbose = true then
            [Effect.print ("Running -setup flag " ++ env.quote s ++ " as SQL …")] else []) ++
            [Effect.readFile s]) d <;> cases verbose <;> simp
    · intro hext
      refine ⟨?_, ?_⟩
      · intro hbad
        rw [hsnoc]
        have hfile : (Split2 s ":").2 = "" := by
          rcases hbad with h1 | h2 | h3
          · exact split2_file_empty s (Or.inl h1)
          · exact split2_file_empty s (Or.inr h2)
          · exact h3
        simp [setupOne, hext, setupCSV, hfile]
      · intro hfile
        refine ⟨?_, ?_⟩
        · intro e ho
          rw [hsnoc]
          simp [setupOne, hext, setupCSV, hfile, ho, csvNotice, List.append_assoc]
        · intro cs ho
          rw [hsnoc]
          simp only [setupOne, hext, if_true, setupCSV, hfile, if_false, ho, csvNotice,
            okNotice, insertRows_eq]
          cases hrec : cs.records with
          | nil => simp [List.append_assoc]
          | cons header rows =>
            cases hend : cs.ending with
            | some e => simp [List.append_assoc]
            | none =>
              simp only []
              cases hfin : env.bulkFinish
                  (tr ++ ((if verbose = true then
                    [Effect.print ("Running -setup flag " ++ env.quote (Split2 s ":").2 ++
                      " as CSV for table " ++ env.quote (Split2 s ":").1 ++ " …")] else []) ++
                    [Effect.openFile (Split2 s ":").2,
                      Effect.newBulkInsert (Split2 s ":").1 header] ++
                    List.map (fun row => Effect.bulkValues (Split2 s ":").1 row) rows)) <;>
                cases verbose <;> simp [hfin, List.append_assoc] <;> simp_all

theorem connectDB_setup_witness :
    connectDB exampleDB "" ["schema.sql"] true =
      ([Effect.connect ""], Outcome.err "no connection string") ∧
    connectDB exampleDB "sqlite+x" [] true = ([Effect.connect "sqlite+x"], Outcome.ok ()) ∧
    connectDB exampleDB "sqlite+x" (["missing.sql"] ++ ["schema.sql"]) false =
      ([Effect.connect "sqlite+x", Effect.readFile "missing.sql"],
        Outcome.err "open missing.sql: no such file or directory") ∧
    connectDB exampleDB "sqlite+x" ([] ++ ["missing.sql"]) false =
      ([Effect.connect "sqlite+x", Effect.readFile "missing.sql"],
        Outcome.err "open missing.sql: no such file or directory") ∧
    connectDB exampleDB "sqlite+x" ([] ++ ["schema.sql"]) true =
      ([Effect.connect "sqlite+x",
        Effect.print "Running -setup flag \"schema.sql\" as SQL …",
        Effect.readFile "schema.sql", Effect.exec "create table t (a)",
        Effect.print " Okay\n"], Outcome.ok ()) ∧
    connectDB exampleDB "sqlite+x" ([] ++ ["wrong.sql"]) false =
      ([Effect.connect "sqlite+x", Effect.readFile "wrong.sql", Effect.exec "create tble"],
        Outcome.err "running \"wrong.sql\": syntax error") ∧
    connectDB exampleDB "sqlite+x" (["schema.sql"] ++ ["data.csv"]) false =
      ([Effect.connect "sqlite+x", Effect.readFile "schema.sql",
        Effect.exec "create table t (a)"],
        Outcome.err ("wrong value for -setup: \"data.csv\"" ++
          ": csv files need to be as \x27tablename:file.csv\x27")) ∧
    connectDB exampleDB "sqlite+x" ([] ++ ["t:missing.csv"]) false =
      ([Effect.connect "sqlite+x", Effect.openFile "missing.csv"],
        Outcome.err "open missing.csv: no such file or directory") ∧
    connectDB exampleDB "sqlite+x" (["schema.sql"] ++ ["t:data.csv"]) false =
      ([Effect.connect "sqlite+x", Effect.readFile "schema.sql",
        Effect.exec "create table t (a)", Effect.openFile "data.csv",
        Effect.newBulkInsert "t" ["a"], Effect.bulkValues "t" ["1"],
        Effect.bulkValues "t" ["2"], Effect.bulkFinish "t"], Outcome.ok ()) ∧
    connectDB exampleDB "sqlite+x" ([] ++ ["t:empty.csv"]) false =
      ([Effect.connect "sqlite+x", Effect.openFile "empty.csv"], Outcome.err "EOF") ∧
    connectDB exampleDB "sqlite+x" ([] ++ ["t:broken.csv"]) false =
      ([Effect.connect "sqlite+x", Effect.openFile "broken.csv",
        Effect.newBulkInsert "t" ["a"], Effect.bulkValues "t" ["1"]],
        Outcome.err "wrong number of fields") ∧
    connectDB exampleDB "sqlite+x" ([] ++ ["locked:data.csv"]) false =
      ([Effect.connect "sqlite+x", Effect.openFile "data.csv",
        Effect.newBulkInsert "locked" ["a"], Effect.bulkValues "locked" ["1"],
        Effect.bulkValues "locked" ["2"], Effect.bulkFinish "locked"],
        Outcome.err "constraint failed") :=
  ⟨(connectDB_setup exampleDB "" true).1 ["schema.sql"] "no connection string" rfl,
    (connectDB_setup exampleDB "sqlite+x" true).2.1 rfl,
    (connectDB_setup exampleDB "sqlite+x" false).2.2.1 ["missing.sql"] ["schema.sql"]
      [Effect.connect "sqlite+x", Effect.readFile "missing.sql"]
      "open missing.sql: no such file or directory" (by decide),
    (((connectDB_setup exampleDB "sqlite+x" false).2.2.2 [] "missing.sql"
      [Effect.connect "sqlite+x"] (by decide)).1 (by decide)).1
      "open missing.sql: no such file or directory" rfl,
    ((((connectDB_setup exampleDB "sqlite+x" true).2.2.2 [] "schema.sql"
      [Effect.connect "sqlite+x"] (by decide)).1 (by decide)).2
      "create table t (a)" rfl).trans (by decide),
    ((((connectDB_setup exampleDB "sqlite+x" false).2.2.2 [] "wrong.sql"
      [Effect.connect "sqlite+x"] (by decide)).1 (by decide)).2
      "create tble" rfl).trans (by decide),
    (((connectDB_setup exampleDB "sqlite+x" false).2.2.2 ["schema.sql"] "data.csv"
      [Effect.connect "sqlite+x", Effect.readFile "schema.sql",
        Effect.exec "create table t (a)"] (by decide)).2 (by decide)).1
      (Or.inl (by decide)),
    ((((connectDB_setup exampleDB "sqlite+x" false).2.2.2 [] "t:missing.csv"
      [Effect.connect "sqlite+x"] (by decide)).2 (by decide)).2 (by decide)).1
      "open missing.csv: no such file or directory" rfl,
    (((((connectDB_setup exampleDB "sqlite+x" false).2.2.2 ["schema.sql"] "t:data.csv"
      [Effect.connect "sqlite+x", Effect.readFile "schema.sql",
        Effect.exec "create table t (a)"] (by decide)).2 (by decide)).2 (by decide)).2
      { records := [["a"], ["1"], ["2"]], ending := none } rfl).trans (by decide),
    (((((connectDB_setup exampleDB "sqlite+x" false).2.2.2 [] "t:empty.csv"
      [Effect.connect "sqlite+x"] (by decide)).2 (by decide)).2 (by decide)).2
      { records := [], ending := none } rfl).trans (by decide),
    (((((connectDB_setup exampleDB "sqlite+x" false).2.2.2 [] "t:broken.csv"
      [Effect.connect "sqlite+x"] (by decide)).2 (by decide)).2 (by decide)).2
      { records := [["a"], ["1"]], ending := some "wrong number of fields" } rfl).trans
      (by decide),
    (((((connectDB_setup exampleDB "sqlite+x" false).2.2.2 [] "locked:data.csv"
      [Effect.connect "sqlite+x"] (by decide)).2 (by decide)).2 (by decide)).2
      { records := [["a"], ["1"], ["2"]], ending := none } rfl).trans (by decide)⟩

/-! ## Theorems about the benchmark -/

theorem main_eq_bench {File σ : Type} (penv : ParamEnv File) (denv : DBEnv) (env : RunEnv)
    (lib : ReportLib) (rec : Recorder σ) (fl : Flags) (paramList : List Row)
    (h : Starts penv denv fl paramList) :
    main penv denv env lib rec fl =
      { bench env lib rec fl paramList with
        osStdout := (readParams penv fl.query fl.params (decide (fl.verbose ≥ 1))).1,
        effects := (connectDB denv fl.dbConnect fl.setup (decide (fl.verbose ≥ 1))).1 } := by
  obtain ⟨h1, h2, h3, -, h4, h5⟩ := h
  unfold main
  simp [h1, h2, h3, h4, h5]

theorem runTask_ok {σ : Type} (env : RunEnv) (rec : Recorder σ) (fl : Flags) (args : Row)
    (st : RunState σ) (h : (env.exec st.execs fl.query args).err = none) :
    runTask env rec fl args st =
      ({ met := rec.Record st.met (env.exec st.execs fl.query args).elapsed fl.query args,
         errs := st.errs, execs := st.execs + 1, stderr := st.stderr }, false) := by
  simp [runTask, h, Group.Append]

theorem runTask_fail {σ : Type} (env : RunEnv) (rec : Recorder σ) (fl : Flags) (args : Row)
    (st : RunState σ) (e : String) (h : (env.exec st.execs fl.query args).err = some e) :
    (runTask env rec fl args st).2 = fl.failfast ∧
    (runTask env rec fl args st).1.execs = st.execs + 1 ∧
    (runTask env rec fl args st).1.errs = (st.errs.Append (some e)).1 ∧
    (runTask env rec fl args st).1.stderr =
      (if fl.failfast then st.stderr ++ [e] else st.stderr) := by
  cases hf : fl.failfast <;> simp [runTask, h, Group.Append, hf]

/-- Without fail-fast no task ends the process. -/
theorem runTask_no_exit {σ : Type} (env : RunEnv) (rec : Recorder σ) (fl : Flags) (args : Row)
    (st : RunState σ) (h : fl.failfast = false) : (runTask env rec fl args st).2 = false := by
  simp [runTask, h]

/-- From the execution numbered `start` on, the executions of `rows` in order all
succeed. -/
theorem runOnce_ok {σ : Type} (env : RunEnv) (rec : Recorder σ) (fl : Flags) :
    ∀ (rows : List Row) (st : RunState σ),
      (∀ j args, rows[j]? = some args → (env.exec (st.execs + j) fl.query args).err = none) →
      (runOnce env rec fl rows st).2 = false ∧
      (runOnce env rec fl rows st).1.execs = st.execs + rows.length ∧
      (runOnce env rec fl rows st).1.errs = st.errs ∧
      (runOnce env rec fl rows st).1.stderr = st.stderr := by
  intro rows
  induction rows with
  | nil => intro st _; simp [runOnce]
  | cons a rest ih =>
    intro st h
    have h0 : (env.exec st.execs fl.query a).err = none := by
      have := h 0 a (by simp)
      simpa using this
    have ht := runTask_ok env rec fl a st h0
    have hrest := ih (runTask env rec fl a st).1 (by
      intro j args hj
      have := h (j + 1) args (by simpa using hj)
      rw [ht]
      simpa [Nat.add_assoc, Nat.add_comm 1 j] using this)
    simp only [runOnce, ht] at hrest ⊢
    simp only [Bool.false_eq_true, if_false]
    obtain ⟨r1, r2, r3, r4⟩ := hrest
    refine ⟨r1, ?_, r3, r4⟩
    rw [r2]; simp [Nat.add_assoc, Nat.add_comm 1]

theorem runOnce_no_exit {σ : Type} (env : RunEnv) (rec : Recorder σ) (fl : Flags)
    (h : fl.failfast = false) :
    ∀ (rows : List Row) (st : RunState σ),
      (runOnce env rec fl rows st).2 = false ∧
      (runOnce env rec fl rows st).1.execs = st.execs + rows.length := by
  intro rows
  induction rows with
  | nil => intro st; simp [runOnce]
  | cons a rest ih =>
    intro st
    have ht := runTask_no_exit env rec fl a st h
    have he : (runTask env rec fl a st).1.execs = st.execs + 1 := by simp [runTask, h]
    simp only [runOnce, ht, Bool.false_eq_true, if_false]
    refine ⟨(ih _).1, ?_⟩
    rw [(ih _).2, he]; simp [Nat.add_assoc, Nat.add_comm 1]

theorem runOnce_append {σ : Type} (env : RunEnv) (rec : Recorder σ) (fl : Flags) :
    ∀ (xs ys : List Row) (st : RunState σ),
      runOnce env rec fl (xs ++ ys) st =
        if (runOnce env rec fl xs st).2 then runOnce env rec fl xs st
        else runOnce env rec fl ys (runOnce env rec fl xs st).1 := by
  intro xs
  induction xs with
  | nil => intro ys st; simp [runOnce]
  | cons a rest ih =>
    intro ys st
    simp only [List.cons_append, runOnce]
    by_cases h : (runTask env rec fl a st).2 = true
    · simp [h]
    · simp only [h, if_false]
      exact ih ys _

theorem runRounds_eq {σ : Type} (env : RunEnv) (rec : Recorder σ) (fl : Flags)
    (paramList : List Row) :
    ∀ (k : Nat) (st : RunState σ),
      runRounds env rec fl paramList k st =
        runOnce env rec fl (List.replicate k paramList).flatten st := by
  intro k
  induction k with
  | zero => intro st; simp [runRounds, runOnce]
  | succ k ih =>
    intro st
    simp only [runRounds, List.replicate_succ, List.flatten_cons, runOnce_append]
    by_cases h : (runOnce env rec fl paramList st).2 = true
    · simp only [h, if_true]
      exact Prod.ext rfl h.symm
    · simp only [h, if_false]
      exact ih _

theorem record_single (q : String) (m : List (String × List Int)) (d : Int) (a : Row)
    (h : m = [] ∨ ∃ l, m = [(q, l)]) :
    (MetricsMemory.Record m d q a = [] ∨ ∃ l, MetricsMemory.Record m d q a = [(q, l)]) ∧
    totalSamples (MetricsMemory.Record m d q a) = totalSamples m + 1 := by
  rcases h with rfl | ⟨l, rfl⟩
  · simp [MetricsMemory, totalSamples]
  · simp [MetricsMemory, totalSamples]

theorem runOnce_ok_samples (env : RunEnv) (fl : Flags) :
    ∀ (rows : List Row) (st : RunState (List (String × List Int))),
      (∀ j args, rows[j]? = some args → (env.exec (st.execs + j) fl.query args).err = none) →
      (st.met = [] ∨ ∃ l, st.met = [(fl.query, l)]) →
      ((runOnce env MetricsMemory fl rows st).1.met = [] ∨
        ∃ l, (runOnce env MetricsMemory fl rows st).1.met = [(fl.query, l)]) ∧
      totalSamples (runOnce env MetricsMemory fl rows st).1.met =
        totalSamples st.met + rows.length := by
  intro rows
  induction rows with
  | nil => intro st _ hm; simpa [runOnce] using hm
  | cons a rest ih =>
    intro st h hm
    have h0 : (env.exec st.execs fl.query a).err = none := by
      have := h 0 a (by simp)
      simpa using this
    have ht := runTask_ok env MetricsMemory fl a st h0
    have hrec := record_single fl.query st.met (env.exec st.execs fl.query a).elapsed a hm
    have hrest := ih (runTask env MetricsMemory fl a st).1 (by
      intro j args hj
      have := h (j + 1) args (by simpa using hj)
      rw [ht]
      simpa [Nat.add_assoc, Nat.add_comm 1 j] using this) (by rw [ht]; exact hrec.1)
    simp only [runOnce, ht] at hrest ⊢
    simp only [Bool.false_eq_true, if_false]
    refine ⟨hrest.1, ?_⟩
    rw [hrest.2, hrec.2]; simp [Nat.add_assoc, Nat.add_comm 1]

theorem totalSamples_single (q : String) (m : List (String × List Int))
    (h : m = [] ∨ ∃ l, m = [(q, l)]) (hpos : 0 < totalSamples m) :
    ∃ l, m = [(q, l)] ∧ l.length = totalSamples m := by
  rcases h with rfl | ⟨l, rfl⟩
  · simp [totalSamples] at hpos
  · exact ⟨l, rfl, by simp [totalSamples]⟩

theorem length_flatten_replicate {α : Type} (k : Nat) (l : List α) :
    (List.replicate k l).flatten.length = k * l.length := by
  induction k with
  | zero => simp
  | succ k ih => simp [List.replicate_succ, ih, Nat.succ_mul, Nat.add_comm]

/-- What `measure` leaves when every execution of the measuring phase succeeds,
started from a store with at most the entry of the query and no captured
error. -/
theorem measure_ok (env : RunEnv) (lib : ReportLib) (fl : Flags) (paramList : List Row)
    (st : RunState (List (String × List Int))) (started : Int) (clock : Nat)
    (hok : ∀ j args, ((List.replicate fl.repeatN.toNat paramList).flatten)[j]? = some args →
      (env.exec (st.execs + j) fl.query args).err = none)
    (hm : st.met = [] ∨ ∃ l, st.met = [(fl.query, l)]) :
    totalSamples (measure env lib MetricsMemory fl paramList st started clock).met =
      totalSamples st.met + fl.repeatN.toNat * paramList.length ∧
    (measure env lib MetricsMemory fl paramList st started clock).execs =
      st.execs + fl.repeatN.toNat * paramList.length ∧
    (∀ a, (measure env lib MetricsMemory fl paramList st started clock).reported = some a →
      a.times.length = totalSamples st.met + fl.repeatN.toNat * paramList.length ∧
      a.n = (paramList.length : Int) ∧ a.repeatN = fl.repeatN ∧
      a.wall = env.now clock - started) ∧
    (0 < totalSamples st.met + fl.repeatN.toNat * paramList.length →
      ∃ a, (measure env lib MetricsMemory fl paramList st started clock).reported = some a) := by
  have h1 := runOnce_ok env MetricsMemory fl _ st hok
  have h2 := runOnce_ok_samples env fl _ st hok hm
  rw [length_flatten_replicate] at h1 h2
  rw [← runRounds_eq] at h1 h2
  obtain ⟨e1, e2, -, -⟩ := h1
  obtain ⟨m1, m2⟩ := h2
  unfold measure
  simp only [e1, Bool.false_eq_true, if_false]
  rcases m1 with hnil | ⟨l, hl⟩
  · have hq : MetricsMemory.Queries
        (runRounds env MetricsMemory fl paramList fl.repeatN.toNat st).1.met = [] := by
      rw [hnil]; rfl
    simp only [hq]
    refine ⟨m2, e2, ?_, ?_⟩
    · intro a ha; simp at ha
    · intro hpos
      rw [← m2, hnil] at hpos
      simp [totalSamples] at hpos
  · have hq : MetricsMemory.Queries
        (runRounds env MetricsMemory fl paramList fl.repeatN.toNat st).1.met = [(fl.query, l)] := by
      rw [hl]; rfl
    have hlen : l.length = totalSamples st.met + fl.repeatN.toNat * paramList.length := by
      rw [← m2, hl]; simp [totalSamples]
    simp only [hq]
    refine ⟨m2, e2, ?_, ?_⟩
    · intro a ha
      simp only [Option.some.injEq] at ha
      subst ha
      exact ⟨hlen, rfl, rfl, rfl⟩
    · intro _; exact ⟨_, rfl⟩

theorem getElem?_append_shift {α : Type} (xs ys : List α) (j : Nat) :
    (xs ++ ys)[xs.length + j]? = ys[j]? := by
  rw [List.getElem?_append_right (Nat.le_add_right _ _)]
  simp

theorem getElem?_append_of_some {α : Type} (xs ys : List α) (j : Nat) (a : α)
    (h : xs[j]? = some a) : (xs ++ ys)[j]? = some a := by
  have hj : j < xs.length := by
    by_contra hc
    rw [List.getElem?_eq_none (Nat.le_of_not_lt hc)] at h
    cases h
  rw [List.getElem?_append_left hj]; exact h

/-- C2: with the production recorder, for every parameter set of size N and
every repeat factor R ≥ 1, with or without the warm-up pass, when no execution
fails, the metrics store holds exactly N × R samples when the run ends, the
collection of durations handed to `printReport` holds exactly N × R samples
(and for N ≥ 1 one is handed over), the run executes one query per row per
round on top of the warm-up pass, and the N samples that the warm-up pass
recorded are gone after the reset. -/
theorem samples_handed_to_report {File : Type} (penv : ParamEnv File) (denv : DBEnv)
    (env : RunEnv) (lib : ReportLib) (fl : Flags) (paramList : List Row)
    (hs : Starts penv denv fl paramList) (hr : 1 ≤ fl.repeatN)
    (hok : ∀ k args, (taskRows fl paramList)[k]? = some args →
      (env.exec k fl.query args).err = none) :
    (totalSamples (main penv denv env lib MetricsMemory fl).met : Int) =
      (paramList.length : Int) * fl.repeatN ∧
    (∀ a, (main penv denv env lib MetricsMemory fl).reported = some a →
      (a.times.length : Int) = (paramList.length : Int) * fl.repeatN) ∧
    (paramList ≠ [] → ∃ a, (main penv denv env lib MetricsMemory fl).reported = some a) ∧
    ((main penv denv env lib MetricsMemory fl).execs : Int) =
      (if fl.warmup then (paramList.length : Int) else 0) +
        (paramList.length : Int) * fl.repeatN ∧
    (fl.warmup = true →
      totalSamples (runOnce env MetricsMemory fl paramList (initState MetricsMemory)).1.met =
        paramList.length ∧
      totalSamples (MetricsMemory.Reset
        (runOnce env MetricsMemory fl paramList (initState MetricsMemory)).1.met) = 0) := by
  have hR : ((fl.repeatN.toNat : Nat) : Int) = fl.repeatN := Int.toNat_of_nonneg (by omega)
  have hRpos : 0 < fl.repeatN.toNat := by omega
  rw [main_eq_bench penv denv env lib MetricsMemory fl paramList hs]
  cases hw : fl.warmup with
  | false =>
    have hok2 : ∀ j args, ((List.replicate fl.repeatN.toNat paramList).flatten)[j]? = some args →
        (env.exec ((initState MetricsMemory).execs + j) fl.query args).err = none := by
      intro j args hj
      have := hok j args (by simpa [taskRows, hw] using hj)
      simpa [initState] using this
    have hm := measure_ok env lib fl paramList (initState MetricsMemory) (env.now 0) 1 hok2
      (Or.inl rfl)
    have h0 : totalSamples (initState MetricsMemory).met = 0 := rfl
    have he0 : (initState MetricsMemory).execs = 0 := rfl
    rw [h0, he0] at hm
    simp only [Nat.zero_add] at hm
    obtain ⟨m1, m2, m3, m4⟩ := hm
    simp only [bench, hw, Bool.false_eq_true, if_false]
    refine ⟨?_, ?_, ?_, ?_, ?_⟩
    · rw [m1]; push_cast; rw [hR]; ring
    · intro a ha
      rw [(m3 a ha).1]; push_cast; rw [hR]; ring
    · intro hne
      exact m4 (Nat.mul_pos hRpos (List.length_pos.mpr hne))
    · rw [m2]; push_cast; rw [hR]; ring
    · intro h; cases h
  | true =>
    have hokW : ∀ j args, paramList[j]? = some args →
        (env.exec ((initState MetricsMemory).execs + j) fl.query args).err = none := by
      intro j args hj
      have := hok j args (by
        simp only [taskRows, hw, if_true]
        exact getElem?_append_of_some _ _ _ _ hj)
      simpa [initState] using this
    have hw1 := runOnce_ok env MetricsMemory fl paramList (initState MetricsMemory) hokW
    have hw2 := runOnce_ok_samples env fl paramList (initState MetricsMemory) hokW (Or.inl rfl)
    obtain ⟨w1, w2, w3, -⟩ := hw1
    have h0 : totalSamples (initState MetricsMemory).met = 0 := rfl
    have he0 : (initState MetricsMemory).execs = 0 := rfl
    rw [he0, Nat.zero_add] at w2
    rw [h0, Nat.zero_add] at hw2
    have hlen : (runOnce env MetricsMemory fl paramList (initState MetricsMemory)).1.errs.Len = 0 := by
      rw [w3]; rfl
    have hok2 : ∀ j args, ((List.replicate fl.repeatN.toNat paramList).flatten)[j]? = some args →
        (env.exec (paramList.length + j) fl.query args).err = none := by
      intro j args hj
      exact hok (paramList.length + j) args (by
        simp only [taskRows, hw, if_true]
        rw [getElem?_append_shift]; exact hj)
    have hm := measure_ok env lib fl paramList
      { (runOnce env MetricsMemory fl paramList (initState MetricsMemory)).1 with
        met := MetricsMemory.Reset
          (runOnce env MetricsMemory fl paramList (initState MetricsMemory)).1.met }
      (env.now 1) 2 (by simpa [w2] using hok2) (Or.inl rfl)
    have hreset : totalSamples (MetricsMemory.Reset
        (runOnce env MetricsMemory fl paramList (initState MetricsMemory)).1.met) = 0 := rfl
    simp only [hreset, Nat.zero_add] at hm
    obtain ⟨m1, m2, m3, m4⟩ := hm
    simp only [bench, hw, w1, hlen, Bool.false_eq_true, if_false, if_true, Nat.lt_irrefl]
    refine ⟨?_, ?_, ?_, ?_, ?_⟩
    · rw [m1]; push_cast; rw [hR]; ring
    · intro a ha
      rw [(m3 a ha).1]; push_cast; rw [hR]; ring
    · intro hne
      exact m4 (Nat.mul_pos hRpos (List.length_pos.mpr hne))
    · rw [m2, w2]; push_cast; rw [hR]; ring
    · intro _; exact ⟨hw2.2, hreset⟩

theorem samples_handed_to_report_witness :
    (totalSamples (main (paramEnvOf [[["host"], ["h1"], ["h2"]]]) plainDB
        (sampleRun []) sampleLib MetricsMemory (sampleFlags true false 2)).met : Int) =
      (([["h1"], ["h2"]] : List Row).length : Int) * (sampleFlags true false 2).repeatN ∧
    (((ReportArgs.mk [1000000, 1000000, 1000000, 1000000] 1000000 2 2).times.length : Int) =
      (([["h1"], ["h2"]] : List Row).length : Int) * (sampleFlags true false 2).repeatN) ∧
    (∃ a, (main (paramEnvOf [[["host"], ["h1"], ["h2"]]]) plainDB
        (sampleRun []) sampleLib MetricsMemory (sampleFlags true false 2)).reported = some a) ∧
    totalSamples (runOnce (sampleRun []) MetricsMemory (sampleFlags true false 2)
        [["h1"], ["h2"]] (initState MetricsMemory)).1.met =
      ([["h1"], ["h2"]] : List Row).length ∧
    totalSamples (MetricsMemory.Reset (runOnce (sampleRun []) MetricsMemory
        (sampleFlags true false 2) [["h1"], ["h2"]] (initState MetricsMemory)).1.met) = 0 :=
  ⟨(samples_handed_to_report (paramEnvOf [[["host"], ["h1"], ["h2"]]]) plainDB
      (sampleRun []) sampleLib (sampleFlags true false 2) [["h1"], ["h2"]]
      ⟨rfl, by decide, by decide, by decide, by decide, by decide⟩ (by decide)
      (fun _ _ _ => rfl)).1,
    (samples_handed_to_report (paramEnvOf [[["host"], ["h1"], ["h2"]]]) plainDB
      (sampleRun []) sampleLib (sampleFlags true false 2) [["h1"], ["h2"]]
      ⟨rfl, by decide, by decide, by decide, by decide, by decide⟩ (by decide)
      (fun _ _ _ => rfl)).2.1
      (ReportArgs.mk [1000000, 1000000, 1000000, 1000000] 1000000 2 2) (by decide),
    (samples_handed_to_report (paramEnvOf [[["host"], ["h1"], ["h2"]]]) plainDB
      (sampleRun []) sampleLib (sampleFlags true false 2) [["h1"], ["h2"]]
      ⟨rfl, by decide, by decide, by decide, by decide, by decide⟩ (by decide)
      (fun _ _ _ => rfl)).2.2.1 (by decide),
    (samples_handed_to_report (paramEnvOf [[["host"], ["h1"], ["h2"]]]) plainDB
      (sampleRun []) sampleLib (sampleFlags true false 2) [["h1"], ["h2"]]
      ⟨rfl, by decide, by decide, by decide, by decide, by decide⟩ (by decide)
      (fun _ _ _ => rfl)).2.2.2.2 rfl⟩

theorem append_len_pos (g : Group) (e : String) (h : 0 < g.maxSize) :
    0 < (g.Append (some e)).1.Len ∧ (g.Append (some e)).1.maxSize = g.maxSize := by
  unfold Group.Append Group.Len
  by_cases hl : g.errs.length < g.maxSize
  · simp [hl]
  · simp only [hl, if_false, and_true]
    omega

theorem runTask_bounds {σ : Type} (env : RunEnv) (rec : Recorder σ) (fl : Flags) (args : Row)
    (st : RunState σ) (hmax : 0 < st.errs.maxSize) :
    (runTask env rec fl args st).1.execs = st.execs + 1 ∧
    (runTask env rec fl args st).1.errs.maxSize = st.errs.maxSize ∧
    (0 < st.errs.Len → 0 < (runTask env rec fl args st).1.errs.Len) ∧
    ((env.exec st.execs fl.query args).err ≠ none →
      0 < (runTask env rec fl args st).1.errs.Len) := by
  cases he : (env.exec st.execs fl.query args).err with
  | none =>
    rw [runTask_ok env rec fl args st he]
    simp
  | some e =>
    have ha := append_len_pos st.errs e hmax
    obtain ⟨-, f2, f3, -⟩ := runTask_fail env rec fl args st e he
    refine ⟨f2, ?_, ?_, ?_⟩
    · rw [f3]; exact ha.2
    · intro _; rw [f3]; exact ha.1
    · intro _; rw [f3]; exact ha.1

/-- A pass never executes more than its rows, and a failed execution leaves a
captured error (or has ended the process). -/
theorem runOnce_bounds {σ : Type} (env : RunEnv) (rec : Recorder σ) (fl : Flags) :
    ∀ (rows : List Row) (st : RunState σ), 0 < st.errs.maxSize →
      (runOnce env rec fl rows st).1.execs ≤ st.execs + rows.length ∧
      ((0 < st.errs.Len ∨ ∃ j args, rows[j]? = some args ∧
          (env.exec (st.execs + j) fl.query args).err ≠ none) →
        (runOnce env rec fl rows st).2 = true ∨ 0 < (runOnce env rec fl rows st).1.errs.Len) := by
  intro rows
  induction rows with
  | nil =>
    intro st _
    refine ⟨by simp [runOnce], ?_⟩
    rintro (h | ⟨j, args, hj, -⟩)
    · right; simpa [runOnce] using h
    · simp at hj
  | cons a rest ih =>
    intro st hmax
    obtain ⟨b1, b2, b3, b4⟩ := runTask_bounds env rec fl a st hmax
    cases hx : (runTask env rec fl a st).2 with
    | true =>
      simp only [runOnce, hx, if_true]
      refine ⟨by rw [b1]; simp only [List.length_cons]; omega, fun _ => Or.inl trivial⟩
    | false =>
      simp only [runOnce, hx, Bool.false_eq_true, if_false]
      have hih := ih (runTask env rec fl a st).1 (by rw [b2]; exact hmax)
      refine ⟨by have := hih.1; rw [b1] at this; simp only [List.length_cons]; omega, ?_⟩
      intro h
      apply hih.2
      rcases h with h | ⟨j, args, hj, hfail⟩
      · exact Or.inl (b3 h)
      · cases j with
        | zero =>
          simp only [List.getElem?_cons_zero, Option.some.injEq] at hj
          subst hj
          exact Or.inl (b4 (by simpa using hfail))
        | succ j =>
          right
          refine ⟨j, args, by simpa using hj, ?_⟩
          rw [b1]
          simpa [Nat.add_assoc, Nat.add_comm 1 j] using hfail

/-- C3 (as stated, refuted): with the warm-up pass enabled and fail-fast
disabled, a warm-up pass that captured an error ends the run with exit code 1
after the two warm-up executions: no reset (the warm-up samples are still in
the store), no measuring, no report. -/
theorem warmup_error_aborts_without_failfast :
    (sampleFlags true false 2).warmup = true ∧ (sampleFlags true false 2).failfast = false ∧
    Starts (paramEnvOf [[["host"], ["h1"], ["h2"]]]) plainDB (sampleFlags true false 2)
      [["h1"], ["h2"]] ∧
    (main (paramEnvOf [[["host"], ["h1"], ["h2"]]]) plainDB (sampleRun [0]) sampleLib
      MetricsMemory (sampleFlags true false 2)).exit = Exit.code 1 ∧
    (main (paramEnvOf [[["host"], ["h1"], ["h2"]]]) plainDB (sampleRun [0]) sampleLib
      MetricsMemory (sampleFlags true false 2)).execs = 2 ∧
    (main (paramEnvOf [[["host"], ["h1"], ["h2"]]]) plainDB (sampleRun [0]) sampleLib
      MetricsMemory (sampleFlags true false 2)).met = [("select ?", [1000000, 1000000])] ∧
    (main (paramEnvOf [[["host"], ["h1"], ["h2"]]]) plainDB (sampleRun [0]) sampleLib
      MetricsMemory (sampleFlags true false 2)).reported = none := by
  refine ⟨rfl, rfl, ⟨rfl, by decide, by decide, by decide, by decide, by decide⟩, ?_, ?_, ?_, ?_⟩ <;> decide

/-- C3 (amended): with the warm-up pass enabled, `main` aborts before the
measuring phase exactly when the warm-up pass met a failing execution, with
fail-fast or without: it then exits with code 1 after at most the warm-up
executions and prints no report. When no warm-up execution fails it takes a new
start timestamp, resets the duration accumulator and goes on to the measuring
phase from there. -/
theorem warmup_gate {File σ : Type} (penv : ParamEnv File) (denv : DBEnv) (env : RunEnv)
    (lib : ReportLib) (rec : Recorder σ) (fl : Flags) (paramList : List Row)
    (hs : Starts penv denv fl paramList) (hw : fl.warmup = true) :
    ((∃ k args, paramList[k]? = some args ∧ (env.exec k fl.query args).err ≠ none) →
      (main penv denv env lib rec fl).exit = Exit.code 1 ∧
      (main penv denv env lib rec fl).reported = none ∧
      (main penv denv env lib rec fl).stdout = [] ∧
      (main penv denv env lib rec fl).execs ≤ paramList.length) ∧
    ((∀ k args, paramList[k]? = some args → (env.exec k fl.query args).err = none) →
      main penv denv env lib rec fl =
        { measure env lib rec fl paramList
            { met := rec.Reset (runOnce env rec fl paramList (initState rec)).1.met,
              errs := NewGroup 10, execs := paramList.length, stderr := [] }
            (env.now 1) 2 with
          osStdout := (readParams penv fl.query fl.params (decide (fl.verbose ≥ 1))).1,
          effects := (connectDB denv fl.dbConnect fl.setup (decide (fl.verbose ≥ 1))).1 }) := by
  rw [main_eq_bench penv denv env lib rec fl paramList hs]
  constructor
  · rintro ⟨k, args, hk, hfail⟩
    have hb := runOnce_bounds env rec fl paramList (initState rec)
      (by simp [initState, NewGroup])
    have habort := hb.2 (Or.inr ⟨k, args, hk, by simpa [initState] using hfail⟩)
    have hex : (runOnce env rec fl paramList (initState rec)).1.execs ≤ paramList.length := by
      simpa [initState] using hb.1
    cases hx : (runOnce env rec fl paramList (initState rec)).2 with
    | true =>
      simp only [bench, hw, hx, if_true]
      exact ⟨trivial, trivial, trivial, hex⟩
    | false =>
      have hpos : 0 < (runOnce env rec fl paramList (initState rec)).1.errs.Len := by
        rcases habort with h | h
        · rw [hx] at h; cases h
        · exact h
      simp only [bench, hw, hx, if_true, Bool.false_eq_true, if_false, hpos]
      exact ⟨trivial, trivial, trivial, hex⟩
  · intro hok
    obtain ⟨w1, w2, w3, w4⟩ := runOnce_ok env rec fl paramList (initState rec)
      (by intro j args hj; simpa [initState] using hok j args hj)
    have hlen : (runOnce env rec fl paramList (initState rec)).1.errs.Len = 0 := by
      rw [w3]; rfl
    simp only [bench, hw, w1, hlen, if_true, Bool.false_eq_true, if_false, Nat.lt_irrefl]
    rw [w2, w3, w4]
    simp [initState]

theorem warmup_gate_witness :
    ((main (paramEnvOf [[["host"], ["h1"], ["h2"]]]) plainDB (sampleRun [1]) sampleLib
        MetricsMemory (sampleFlags true true 2)).exit = Exit.code 1 ∧
      (main (paramEnvOf [[["host"], ["h1"], ["h2"]]]) plainDB (sampleRun [1]) sampleLib
        MetricsMemory (sampleFlags true true 2)).reported = none ∧
      (main (paramEnvOf [[["host"], ["h1"], ["h2"]]]) plainDB (sampleRun [1]) sampleLib
        MetricsMemory (sampleFlags true true 2)).stdout = [] ∧
      (main (paramEnvOf [[["host"], ["h1"], ["h2"]]]) plainDB (sampleRun [1]) sampleLib
        MetricsMemory (sampleFlags true true 2)).execs ≤ ([["h1"], ["h2"]] : List Row).length) ∧
    main (paramEnvOf [[["host"], ["h1"], ["h2"]]]) plainDB (sampleRun [5]) sampleLib
        MetricsMemory (sampleFlags true false 2) =
      { measure (sampleRun [5]) sampleLib MetricsMemory (sampleFlags true false 2)
          [["h1"], ["h2"]]
          { met := MetricsMemory.Reset (runOnce (sampleRun [5]) MetricsMemory
              (sampleFlags true false 2) [["h1"], ["h2"]] (initState MetricsMemory)).1.met,
            errs := NewGroup 10, execs := ([["h1"], ["h2"]] : List Row).length, stderr := [] }
          ((sampleRun [5]).now 1) 2 with
        osStdout := (readParams (paramEnvOf [[["host"], ["h1"], ["h2"]]])
          (sampleFlags true false 2).query (sampleFlags true false 2).params
          (decide ((sampleFlags true false 2).verbose ≥ 1))).1,
        effects := (connectDB plainDB (sampleFlags true false 2).dbConnect
          (sampleFlags true false 2).setup (decide ((sampleFlags true false 2).verbose ≥ 1))).1 } :=
  ⟨(warmup_gate (paramEnvOf [[["host"], ["h1"], ["h2"]]]) plainDB (sampleRun [1])
      sampleLib MetricsMemory (sampleFlags true true 2) [["h1"], ["h2"]]
      ⟨rfl, by decide, by decide, by decide, by decide, by decide⟩ rfl).1
      ⟨1, ["h2"], rfl, by decide⟩,
    (warmup_gate (paramEnvOf [[["host"], ["h1"], ["h2"]]]) plainDB (sampleRun [5])
      sampleLib MetricsMemory (sampleFlags true false 2) [["h1"], ["h2"]]
      ⟨rfl, by decide, by decide, by decide, by decide, by decide⟩ rfl).2
      (by
        intro k args hk
        have hk2 : k < 2 := by
          by_contra hc
          rw [List.getElem?_eq_none (by simpa using hc)] at hk
          cases hk
        have h01 : k = 0 ∨ k = 1 := by omega
        rcases h01 with rfl | rfl <;> rfl)⟩

/-- C4 (the code at the failing input): with fail-fast and warm-up disabled and a
parameter file that holds only the header record, nothing is executed, the
metrics snapshot is empty, and `main` panics on `met.Queries()[0]`: no report is
printed and the process does not exit with code 0. -/
theorem empty_parameter_set_panics :
    Starts (paramEnvOf [[["host"]]]) plainDB (sampleFlags false false 1) [] ∧
    (main (paramEnvOf [[["host"]]]) plainDB (sampleRun []) sampleLib MetricsMemory
      (sampleFlags false false 1)).exit =
        Exit.panic "runtime error: index out of range [0] with length 0" ∧
    (main (paramEnvOf [[["host"]]]) plainDB (sampleRun []) sampleLib MetricsMemory
      (sampleFlags false false 1)).stdout = [] ∧
    (main (paramEnvOf [[["host"]]]) plainDB (sampleRun []) sampleLib MetricsMemory
      (sampleFlags false false 1)).reported = none := by
  refine ⟨⟨rfl, by decide, by decide, by decide, by decide, by decide⟩, ?_, ?_, ?_⟩ <;> decide
/-! ## Theorems about the benchmark under every schedule -/

theorem sum_map_set {α : Type} (f : α → Nat) (l : List α) (j : Nat) (t x : α)
    (h : l[j]? = some t) : ((l.set j x).map f).sum + f t = (l.map f).sum + f x := by
  induction l generalizing j with
  | nil => simp at h
  | cons a l ih =>
    cases j with
    | zero =>
      simp only [List.getElem?_cons_zero, Option.some.injEq] at h
      subst h
      simp only [List.set_cons_zero, List.map_cons, List.sum_cons]
      omega
    | succ j =>
      simp only [List.getElem?_cons_succ] at h
      have := ih j h
      simp only [List.set_cons_succ, List.map_cons, List.sum_cons]
      omega

theorem getElem?_set_same {α : Type} (l : List α) (j : Nat) (t x : α) (h : l[j]? = some t) :
    (l.set j x)[j]? = some x := by
  have hj : j < l.length := by
    by_contra hc
    rw [List.getElem?_eq_none (Nat.le_of_not_lt hc)] at h
    cases h
  simp [List.getElem?_set, hj]

theorem getElem?_set_other {α : Type} (l : List α) (i j : Nat) (x : α) (h : i ≠ j) :
    (l.set j x)[i]? = l[i]? := by
  simp [List.getElem?_set, Ne.symm h]

theorem weight_set (ts : List Task) (j : Nat) (t : Task) (p : TaskPhase) (h : ts[j]? = some t) :
    ((ts.set j { t with phase := p }).map (fun t => t.phase.weight)).sum + t.phase.weight =
      (ts.map (fun t => t.phase.weight)).sum + p.weight :=
  sum_map_set (fun t => t.phase.weight) ts j t { t with phase := p } h

theorem countP_set {α : Type} (p : α → Bool) (l : List α) (j : Nat) (t x : α)
    (h : l[j]? = some t) :
    (l.set j x).countP p + (if p t then 1 else 0) = l.countP p + (if p x then 1 else 0) := by
  induction l generalizing j with
  | nil => simp at h
  | cons a l ih =>
    cases j with
    | zero =>
      simp only [List.getElem?_cons_zero, Option.some.injEq] at h
      subst h
      simp only [List.set_cons_zero, List.countP_cons]
      omega
    | succ j =>
      simp only [List.getElem?_cons_succ] at h
      have := ih j h
      simp only [List.set_cons_succ, List.countP_cons]
      omega

theorem countP_le_countP {α : Type} (p q : α → Bool) (l : List α)
    (h : ∀ a, p a = true → q a = true) : l.countP p ≤ l.countP q := by
  induction l with
  | nil => simp
  | cons a l ih =>
    simp only [List.countP_cons]
    by_cases hp : p a = true
    · simp only [hp, h a hp, if_true]; omega
    · have hp1 : p a = false := by simpa using hp
      simp only [hp1, Bool.false_eq_true, if_false]
      omega

/-- How the three counts change when task `j` moves to phase `p`. -/
theorem counts_set (ts : List Task) (j : Nat) (t : Task) (p : TaskPhase) (h : ts[j]? = some t) :
    inFlight (ts.set j { t with phase := p }) + (if t.phase != TaskPhase.done then 1 else 0) =
        inFlight ts + (if p != TaskPhase.done then 1 else 0) ∧
    (ts.set j { t with phase := p }).countP (fun t => t.phase.failing) +
        (if t.phase.failing then 1 else 0) =
      ts.countP (fun t => t.phase.failing) + (if p.failing then 1 else 0) ∧
    (ts.set j { t with phase := p }).countP (fun t => t.phase.inFatal) +
        (if t.phase.inFatal then 1 else 0) =
      ts.countP (fun t => t.phase.inFatal) + (if p.inFatal then 1 else 0) :=
  ⟨countP_set (fun u : Task => u.phase != TaskPhase.done) ts j t { t with phase := p } h,
    countP_set (fun u : Task => u.phase.failing) ts j t { t with phase := p } h,
    countP_set (fun u : Task => u.phase.inFatal) ts j t { t with phase := p } h⟩

/-- A task in a counted phase is one of the tasks. -/
theorem exists_of_countP_pos (p : Task → Bool) (ts : List Task) (h : 0 < ts.countP p) :
    ∃ (j : Nat) (t : Task), ts[j]? = some t ∧ p t = true := by
  obtain ⟨t, hm, hp⟩ := List.countP_pos_iff.mp h
  obtain ⟨j, hj⟩ := List.mem_iff_getElem?.mp hm
  exact ⟨j, t, hj, hp⟩

theorem countP_pos_of_getElem? (p : Task → Bool) (ts : List Task) (j : Nat) (t : Task)
    (h : ts[j]? = some t) (hp : p t = true) : 0 < ts.countP p :=
  List.countP_pos_iff.mpr ⟨t, List.mem_iff_getElem?.mpr ⟨j, h⟩, hp⟩

theorem failing_ne_done (p : TaskPhase) (h : p.failing = true) : p ≠ TaskPhase.done := by
  intro hc; subst hc; simp [TaskPhase.failing] at h

/-- Every step takes the process closer to its end. -/
theorem step_decreases {σ : Type} (env : RunEnv) (lib : ReportLib) (rec : Recorder σ)
    (fl : Flags) (paramList : List Row) (a : Action) (s s1 : Proc σ)
    (h : step env lib rec fl paramList a s = some s1) :
    stepsLeft fl paramList s1 < stepsLeft fl paramList s := by
  unfold step at h
  split at h
  · cases h
  · rename_i hex
    have hex1 : s.exit = none := by simpa using hex
    cases a with
    | submit =>
      simp only [stepSubmit] at h
      split at h
      · split at h
        · rename_i args rest hpc
          cases h
          simp [stepsLeft, hex1, hpc, rowsLeft, waitsLeft, TaskPhase.weight]
          omega
        · rename_i args rest hpc
          cases h
          simp [stepsLeft, hex1, hpc, rowsLeft, waitsLeft, TaskPhase.weight]
          omega
        · cases h
      · cases h
    | wait =>
      simp only [stepWait] at h
      split at h
      · split at h
        · rename_i hpc
          split at h
          · cases h
            simp [stepsLeft, hex1]
          · cases h
            simp [stepsLeft, hex1, hpc, rowsLeft, waitsLeft, length_flatten_replicate]
        · rename_i hpc
          split at h
          · cases h
            simp [stepsLeft, hex1]
          · cases h
            simp [stepsLeft, hex1]
        · cases h
      · cases h
    | execReturns j r =>
      simp only [stepExec] at h
      split at h
      · rename_i t ht
        split at h
        · rename_i hp
          cases h
          have hs := weight_set s.tasks j t (TaskPhase.returned r.err) ht
          rw [hp] at hs
          change _ + 4 = _ + 3 at hs
          simp only [stepsLeft, hex1, Option.isSome_none, Bool.false_eq_true, if_false]
          omega
        · cases h
      · cases h
    | append j =>
      simp only [stepAppend] at h
      split at h
      · rename_i t ht
        split at h
        · rename_i err hp
          split at h
          · cases h
            have hs := weight_set s.tasks j t (TaskPhase.fatal (err.getD "")) ht
            rw [hp] at hs
            change _ + 3 = _ + 2 at hs
            simp only [stepsLeft, hex1, Option.isSome_none, Bool.false_eq_true, if_false]
            omega
          · cases h
            have hs := weight_set s.tasks j t (TaskPhase.done) ht
            rw [hp] at hs
            change _ + 3 = _ + 0 at hs
            simp only [stepsLeft, hex1, Option.isSome_none, Bool.false_eq_true, if_false]
            omega
        · cases h
      · cases h
    | print j =>
      simp only [stepPrint] at h
      split at h
      · rename_i t ht
        split at h
        · rename_i e hp
          cases h
          have hs := weight_set s.tasks j t (TaskPhase.exiting) ht
          rw [hp] at hs
          change _ + 2 = _ + 1 at hs
          simp only [stepsLeft, hex1, Option.isSome_none, Bool.false_eq_true, if_false]
          omega
        · cases h
      · cases h
    | exit j =>
      simp only [stepExit] at h
      split at h
      · split at h
        · cases h
          simp [stepsLeft, hex1]
        · cases h
      · cases h

/-- A run is no longer than the bound at its start allows. -/
theorem run_length {σ : Type} (env : RunEnv) (lib : ReportLib) (rec : Recorder σ)
    (fl : Flags) (paramList : List Row) :
    ∀ (acts : List Action) (s s1 : Proc σ),
      runActions env lib rec fl paramList acts s = some s1 →
      acts.length + stepsLeft fl paramList s1 ≤ stepsLeft fl paramList s := by
  intro acts
  induction acts with
  | nil =>
    intro s s1 h
    simp only [runActions, Option.some.injEq] at h
    subst h; simp
  | cons a rest ih =>
    intro s s1 h
    simp only [runActions] at h
    split at h
    · rename_i s2 hs2
      have h1 := step_decreases env lib rec fl paramList a s s2 hs2
      have h2 := ih s2 s1 h
      simp only [List.length_cons]
      omega
    · cases h

theorem stepsLeft_init {σ : Type} (env : RunEnv) (rec : Recorder σ) (fl : Flags)
    (paramList : List Row) :
    stepsLeft fl paramList (initProc env rec fl paramList) ≤
      5 * (taskRows fl paramList).length + 3 := by
  cases hw : fl.warmup <;>
    simp [stepsLeft, initProc, hw, rowsLeft, waitsLeft, taskRows, length_flatten_replicate] <;>
    omega

theorem append_isSome (g : Group) (err : Option String) : (g.Append err).2 = err.isSome := by
  cases err <;> rfl

theorem append_some_len (g : Group) (e : String) (h : g.maxSize = 10) :
    (g.Append (some e)).1.maxSize = 10 ∧
    (g.Append (some e)).1.Len = (if g.Len < 10 then g.Len + 1 else g.Len) ∧
    (g.Len < 10 → (g.Append (some e)).1.errs = g.errs ++ [e]) := by
  simp only [Group.Append, Group.Len, h]
  split <;> simp_all

theorem append_maxSize (g : Group) (err : Option String) (h : g.maxSize = 10) :
    (g.Append err).1.maxSize = 10 := by
  cases err with
  | none => exact h
  | some e => exact (append_some_len g e h).1

theorem failing_le_inFlight (ts : List Task) :
    ts.countP (fun t => t.phase.failing) ≤ inFlight ts :=
  countP_le_countP _ _ ts (fun t h => by
    cases hp : t.phase <;> simp_all [TaskPhase.failing])

theorem inFatal_le_failing (ts : List Task) :
    ts.countP (fun t => t.phase.inFatal) ≤ ts.countP (fun t => t.phase.failing) :=
  countP_le_countP _ _ ts (fun t h => by
    cases hp : t.phase <;> simp_all [TaskPhase.failing, TaskPhase.inFatal])

/-- With fail-fast every step keeps `FailFastInv`. -/
theorem step_failfast {σ : Type} (env : RunEnv) (lib : ReportLib) (rec : Recorder σ)
    (fl : Flags) (paramList : List Row) (hff : fl.failfast = true) (a : Action) (s s1 : Proc σ)
    (hinv : FailFastInv fl s) (h : step env lib rec fl paramList a s = some s1) :
    FailFastInv fl s1 := by
  obtain ⟨hM, hL, hF, hK, hP, hC, hB⟩ := hinv
  unfold step at h
  split at h
  · cases h
  · rename_i hex
    have hex1 : s.exit = none := by simpa using hex
    have hC1 := hC hex1
    cases a with
    | submit =>
      simp only [stepSubmit] at h
      split at h
      · rename_i hlim
        have e1 : ∀ args : Row, inFlight (s.tasks ++ [{ args := args, phase := TaskPhase.running }])
            = inFlight s.tasks + 1 := by
          intro args; simp [inFlight, List.countP_append, List.countP_cons]
        have e2 : ∀ args : Row,
            List.countP (fun t : Task => t.phase.failing)
              (s.tasks ++ [Task.mk args TaskPhase.running]) =
                s.tasks.countP (fun t => t.phase.failing) := by
          intro args; simp [List.countP_append, List.countP_cons, TaskPhase.failing]
        have e3 : ∀ args : Row,
            List.countP (fun t : Task => t.phase.inFatal)
              (s.tasks ++ [Task.mk args TaskPhase.running]) =
                s.tasks.countP (fun t => t.phase.inFatal) := by
          intro args; simp [List.countP_append, List.countP_cons, TaskPhase.inFatal]
        split at h
        · cases h
          refine ⟨hM, ?_, ?_, ?_, ?_, hC, hB⟩
          · show inFlight (s.tasks ++ _) ≤ _
            rw [e1]; omega
          · show s.failures = (s.tasks ++ _).countP _
            rw [e2]; exact hF
          · show s.errs.Len ≤ (s.tasks ++ _).countP _
            rw [e3]; exact hK
          · show 0 < (s.tasks ++ _).countP _ → _
            rw [e3]; exact hP
        · cases h
          refine ⟨hM, ?_, ?_, ?_, ?_, hC, hB⟩
          · show inFlight (s.tasks ++ _) ≤ _
            rw [e1]; omega
          · show s.failures = (s.tasks ++ _).countP _
            rw [e2]; exact hF
          · show s.errs.Len ≤ (s.tasks ++ _).countP _
            rw [e3]; exact hK
          · show 0 < (s.tasks ++ _).countP _ → _
            rw [e3]; exact hP
        · cases h
      · cases h
    | wait =>
      simp only [stepWait] at h
      split at h
      · rename_i hfl
        have hzero : s.failures = 0 := by
          have := failing_le_inFlight s.tasks
          omega
        split at h
        · split at h
          · rename_i hlen
            cases h
            exact ⟨hM, hL, hF, hK, hP, fun hn => (by cases hn),
              fun hf => (by simp only [hzero] at hf; omega)⟩
          · cases h
            exact ⟨hM, hL, hF, hK, hP, fun _ => hC1,
              fun hf => (by simp only [hzero] at hf; omega)⟩
        · split at h
          · cases h
            exact ⟨hM, hL, hF, hK, hP, fun hn => (by cases hn),
              fun hf => (by simp only [hzero] at hf; omega)⟩
          · cases h
            exact ⟨hM, hL, hF, hK, hP, fun hn => (by cases hn),
              fun hf => (by simp only [hzero] at hf; omega)⟩
        · cases h
      · cases h
    | execReturns j r =>
      simp only [stepExec] at h
      split at h
      · rename_i t ht
        split at h
        · rename_i hp
          cases h
          obtain ⟨c1, c2, c3⟩ := counts_set s.tasks j t (TaskPhase.returned r.err) ht
          rw [hp] at c1 c2 c3
          change _ + 1 = _ + 1 at c1
          change _ + 0 = _ + 0 at c3
          cases he : r.err with
          | some e =>
            rw [he] at c1 c2 c3
            change _ + 0 = _ + 1 at c2
            refine ⟨hM, ?_, ?_, ?_, ?_, fun _ => hC1, fun _ => ⟨hC1.1, hC1.2, Or.inl hex1⟩⟩
            · show inFlight (s.tasks.set j _) ≤ _
              omega
            · show s.failures + 1 = (s.tasks.set j _).countP _
              omega
            · show s.errs.Len ≤ (s.tasks.set j _).countP _
              omega
            · show 0 < (s.tasks.set j _).countP _ → 1 ≤ s.errs.Len
              intro hpos; exact hP (by omega)
          | none =>
            rw [he] at c1 c2 c3
            change _ + 0 = _ + 0 at c2
            refine ⟨hM, ?_, ?_, ?_, ?_, fun _ => hC1, fun _ => ⟨hC1.1, hC1.2, Or.inl hex1⟩⟩
            · show inFlight (s.tasks.set j _) ≤ _
              omega
            · show s.failures + 0 = (s.tasks.set j _).countP _
              omega
            · show s.errs.Len ≤ (s.tasks.set j _).countP _
              omega
            · show 0 < (s.tasks.set j _).countP _ → 1 ≤ s.errs.Len
              intro hpos; exact hP (by omega)
        · cases h
      · cases h
    | append j =>
      simp only [stepAppend] at h
      split at h
      · rename_i t ht
        split at h
        · rename_i err hp
          split at h
          · rename_i hyes
            cases h
            rw [append_isSome] at hyes
            obtain ⟨e, rfl⟩ : ∃ e, err = some e := by
              cases err with
              | none => simp at hyes
              | some e => exact ⟨e, rfl⟩
            obtain ⟨c1, c2, c3⟩ := counts_set s.tasks j t (TaskPhase.fatal e) ht
            rw [hp] at c1 c2 c3
            change _ + 1 = _ + 1 at c1
            change _ + 1 = _ + 1 at c2
            change _ + 0 = _ + 1 at c3
            obtain ⟨a1, a2, -⟩ := append_some_len s.errs e hM
            have a3 : 1 ≤ (s.errs.Append (some e)).1.Len ∧
                (s.errs.Append (some e)).1.Len ≤ s.errs.Len + 1 := by
              rw [a2]; split <;> omega
            refine ⟨a1, ?_, ?_, ?_, ?_, fun _ => hC1, fun _ => ⟨hC1.1, hC1.2, Or.inl hex1⟩⟩
            · show inFlight (s.tasks.set j { t with phase := TaskPhase.fatal e }) ≤ _
              omega
            · show s.failures = (s.tasks.set j { t with phase := TaskPhase.fatal e }).countP _
              omega
            · show (s.errs.Append (some e)).1.Len ≤
                (s.tasks.set j { t with phase := TaskPhase.fatal e }).countP _
              omega
            · intro _; exact a3.1
          · rename_i hno
            cases h
            rw [append_isSome, hff] at hno
            obtain rfl : err = none := by
              cases err with
              | none => rfl
              | some e => simp at hno
            obtain ⟨c1, c2, c3⟩ := counts_set s.tasks j t TaskPhase.done ht
            rw [hp] at c1 c2 c3
            change _ + 1 = _ + 0 at c1
            change _ + 0 = _ + 0 at c2
            change _ + 0 = _ + 0 at c3
            refine ⟨hM, ?_, ?_, ?_, ?_, fun _ => hC1, fun hf => ⟨hC1.1, hC1.2, Or.inl hex1⟩⟩
            · show inFlight (s.tasks.set j _) ≤ _
              omega
            · show s.failures = (s.tasks.set j _).countP _
              omega
            · show s.errs.Len ≤ (s.tasks.set j _).countP _
              omega
            · show 0 < (s.tasks.set j _).countP _ → 1 ≤ s.errs.Len
              intro hpos; exact hP (by omega)
        · cases h
      · cases h
    | print j =>
      simp only [stepPrint] at h
      split at h
      · rename_i t ht
        split at h
        · rename_i e hp
          cases h
          obtain ⟨c1, c2, c3⟩ := counts_set s.tasks j t TaskPhase.exiting ht
          rw [hp] at c1 c2 c3
          change _ + 1 = _ + 1 at c1
          change _ + 1 = _ + 1 at c2
          change _ + 1 = _ + 1 at c3
          refine ⟨hM, ?_, ?_, ?_, ?_, fun _ => hC1, fun _ => ⟨hC1.1, hC1.2, Or.inl hex1⟩⟩
          · show inFlight (s.tasks.set j _) ≤ _
            omega
          · show s.failures = (s.tasks.set j _).countP _
            omega
          · show s.errs.Len ≤ (s.tasks.set j _).countP _
            omega
          · show 0 < (s.tasks.set j _).countP _ → 1 ≤ s.errs.Len
            intro hpos; exact hP (by omega)
        · cases h
      · cases h
    | exit j =>
      simp only [stepExit] at h
      split at h
      · rename_i t ht
        split at h
        · rename_i hp
          cases h
          have hpos : 0 < s.tasks.countP (fun t => t.phase.inFatal) :=
            countP_pos_of_getElem? _ s.tasks j t ht (by simp only [hp]; rfl)
          exact ⟨hM, hL, hF, hK, hP, fun hn => (by cases hn),
            fun _ => ⟨hC1.1, hC1.2, Or.inr ⟨rfl, hP hpos⟩⟩⟩
        · cases h
      · cases h

/-- With fail-fast every state of a run satisfies `FailFastInv`. -/
theorem run_failfast {σ : Type} (env : RunEnv) (lib : ReportLib) (rec : Recorder σ)
    (fl : Flags) (paramList : List Row) (hff : fl.failfast = true) :
    ∀ (acts : List Action) (s s1 : Proc σ), FailFastInv fl s →
      runActions env lib rec fl paramList acts s = some s1 → FailFastInv fl s1 := by
  intro acts
  induction acts with
  | nil =>
    intro s s1 hinv h
    simp only [runActions, Option.some.injEq] at h
    subst h; exact hinv
  | cons a rest ih =>
    intro s s1 hinv h
    simp only [runActions] at h
    split at h
    · rename_i s2 hs2
      exact ih s2 s1 (step_failfast env lib rec fl paramList hff a s s2 hinv hs2) h
    · cases h

theorem init_failfast {σ : Type} (env : RunEnv) (rec : Recorder σ) (fl : Flags)
    (paramList : List Row) : FailFastInv fl (initProc env rec fl paramList) :=
  ⟨rfl, Nat.zero_le _, rfl, Nat.le_refl _, fun h => (by simp [initProc] at h),
    fun _ => ⟨rfl, rfl⟩, fun hf => (by simp [initProc] at hf)⟩

/-- A task that holds an error under fail-fast has its next step enabled as long
as the process has not exited. -/
theorem failing_task_enabled {σ : Type} (env : RunEnv) (lib : ReportLib) (rec : Recorder σ)
    (fl : Flags) (paramList : List Row) (hff : fl.failfast = true) (s : Proc σ) (j : Nat)
    (t : Task) (hex : s.exit = none) (ht : s.tasks[j]? = some t)
    (hf : t.phase.failing = true) :
    ∃ a s1, (a = Action.append j ∨ a = Action.print j ∨ a = Action.exit j) ∧
      step env lib rec fl paramList a s = some s1 := by
  cases hp : t.phase with
  | running => rw [hp] at hf; simp [TaskPhase.failing] at hf
  | done => rw [hp] at hf; simp [TaskPhase.failing] at hf
  | returned err =>
    cases err with
    | none => rw [hp] at hf; simp [TaskPhase.failing] at hf
    | some e =>
      have hs : ∃ s1, step env lib rec fl paramList (Action.append j) s = some s1 := by
        simp only [step, hex, Option.isSome_none, Bool.false_eq_true, if_false, stepAppend, ht,
          hp, Group.Append, hff, Bool.and_self, if_true]
        exact ⟨_, rfl⟩
      obtain ⟨s1, hs1⟩ := hs
      exact ⟨_, s1, Or.inl rfl, hs1⟩
  | fatal e =>
    have hs : ∃ s1, step env lib rec fl paramList (Action.print j) s = some s1 := by
      simp only [step, hex, Option.isSome_none, Bool.false_eq_true, if_false, stepPrint, ht, hp]
      exact ⟨_, rfl⟩
    obtain ⟨s1, hs1⟩ := hs
    exact ⟨_, s1, Or.inr (Or.inl rfl), hs1⟩
  | exiting =>
    have hs : ∃ s1, step env lib rec fl paramList (Action.exit j) s = some s1 := by
      simp only [step, hex, Option.isSome_none, Bool.false_eq_true, if_false, stepExit, ht, hp]
      exact ⟨_, rfl⟩
    obtain ⟨s1, hs1⟩ := hs
    exact ⟨_, s1, Or.inr (Or.inr rfl), hs1⟩

/-- Without fail-fast every step keeps every task out of `zli.F(err)`. -/
theorem step_nofatal {σ : Type} (env : RunEnv) (lib : ReportLib) (rec : Recorder σ)
    (fl : Flags) (paramList : List Row) (hff : fl.failfast = false) (a : Action) (s s1 : Proc σ)
    (hinv : s.tasks.countP (fun t => t.phase.inFatal) = 0)
    (h : step env lib rec fl paramList a s = some s1) :
    s1.tasks.countP (fun t => t.phase.inFatal) = 0 := by
  unfold step at h
  split at h
  · cases h
  · cases a with
    | submit =>
      simp only [stepSubmit] at h
      have e3 : ∀ args : Row,
          List.countP (fun t : Task => t.phase.inFatal)
            (s.tasks ++ [Task.mk args TaskPhase.running]) =
              s.tasks.countP (fun t => t.phase.inFatal) := by
        intro args; simp [List.countP_append, List.countP_cons, TaskPhase.inFatal]
      split at h
      · split at h
        · cases h
          show (s.tasks ++ _).countP _ = 0
          rw [e3]; exact hinv
        · cases h
          show (s.tasks ++ _).countP _ = 0
          rw [e3]; exact hinv
        · cases h
      · cases h
    | wait =>
      simp only [stepWait] at h
      split at h
      · split at h
        · split at h
          · cases h; exact hinv
          · cases h; exact hinv
        · split at h
          · cases h; exact hinv
          · cases h; exact hinv
        · cases h
      · cases h
    | execReturns j r =>
      simp only [stepExec] at h
      split at h
      · rename_i t ht
        split at h
        · rename_i hp
          cases h
          obtain ⟨-, -, c3⟩ := counts_set s.tasks j t (TaskPhase.returned r.err) ht
          rw [hp] at c3
          change _ + 0 = _ + 0 at c3
          show (s.tasks.set j _).countP _ = 0
          omega
        · cases h
      · cases h
    | append j =>
      simp only [stepAppend] at h
      split at h
      · rename_i t ht
        split at h
        · rename_i err hp
          split at h
          · rename_i hyes
            rw [hff] at hyes
            simp at hyes
          · cases h
            obtain ⟨-, -, c3⟩ := counts_set s.tasks j t TaskPhase.done ht
            rw [hp] at c3
            change _ + 0 = _ + 0 at c3
            show (s.tasks.set j _).countP _ = 0
            omega
        · cases h
      · cases h
    | print j =>
      simp only [stepPrint] at h
      split at h
      · rename_i t ht
        split at h
        · rename_i e hp
          have := countP_pos_of_getElem? (fun t => t.phase.inFatal) s.tasks j t ht
            (by simp only [hp]; rfl)
          omega
        · cases h
      · cases h
    | exit j =>
      simp only [stepExit] at h
      split at h
      · split at h
        · cases h; exact hinv
        · cases h
      · cases h

/-- Without fail-fast no task of a run is ever inside `zli.F(err)`. -/
theorem run_nofatal {σ : Type} (env : RunEnv) (lib : ReportLib) (rec : Recorder σ)
    (fl : Flags) (paramList : List Row) (hff : fl.failfast = false) :
    ∀ (acts : List Action) (s s1 : Proc σ), s.tasks.countP (fun t => t.phase.inFatal) = 0 →
      runActions env lib rec fl paramList acts s = some s1 →
      s1.tasks.countP (fun t => t.phase.inFatal) = 0 := by
  intro acts
  induction acts with
  | nil =>
    intro s s1 hinv h
    simp only [runActions, Option.some.injEq] at h
    subst h; exact hinv
  | cons a rest ih =>
    intro s s1 hinv h
    simp only [runActions] at h
    split at h
    · rename_i s2 hs2
      exact ih s2 s1 (step_nofatal env lib rec fl paramList hff a s s2 hinv hs2) h
    · cases h

/-- While no task is inside `zli.F(err)`, only the main goroutine ends the
process. -/
theorem task_step_no_exit {σ : Type} (env : RunEnv) (lib : ReportLib) (rec : Recorder σ)
    (fl : Flags) (paramList : List Row) (a : Action) (s s1 : Proc σ)
    (hinv : s.tasks.countP (fun t => t.phase.inFatal) = 0)
    (h : step env lib rec fl paramList a s = some s1) (ha : a ≠ Action.wait) :
    s1.exit = none := by
  unfold step at h
  split at h
  · cases h
  · rename_i hex
    have hex1 : s.exit = none := by simpa using hex
    cases a with
    | submit =>
      simp only [stepSubmit] at h
      split at h
      · split at h
        · cases h; exact hex1
        · cases h; exact hex1
        · cases h
      · cases h
    | wait => exact absurd rfl ha
    | execReturns j r =>
      simp only [stepExec] at h
      split at h
      · split at h
        · cases h; exact hex1
        · cases h
      · cases h
    | append j =>
      simp only [stepAppend] at h
      split at h
      · split at h
        · split at h
          · cases h; exact hex1
          · cases h; exact hex1
        · cases h
      · cases h
    | print j =>
      simp only [stepPrint] at h
      split at h
      · split at h
        · cases h; exact hex1
        · cases h
      · cases h
    | exit j =>
      simp only [stepExit] at h
      split at h
      · rename_i t ht
        split at h
        · rename_i hp
          have := countP_pos_of_getElem? (fun t => t.phase.inFatal) s.tasks j t ht
            (by simp only [hp]; rfl)
          omega
        · cases h
      · cases h

/-- The step that captures the first error: the group then holds this error
alone, and with fail-fast the task is on its way into `zli.F(err)`. -/
theorem first_capture {σ : Type} (env : RunEnv) (lib : ReportLib) (rec : Recorder σ)
    (fl : Flags) (paramList : List Row) (hff : fl.failfast = true) (s : Proc σ) (j : Nat)
    (t : Task) (e : String) (hM : s.errs.maxSize = 10) (hex : s.exit = none)
    (ht : s.tasks[j]? = some t) (hp : t.phase = TaskPhase.returned (some e))
    (hlen : s.errs.Len = 0) :
    ∃ s1, step env lib rec fl paramList (Action.append j) s = some s1 ∧ s1.errs.errs = [e] ∧
      s1.tasks[j]? = some { t with phase := TaskPhase.fatal e } ∧ s1.exit = none := by
  have hnil : s.errs.errs = [] := by
    simpa [Group.Len] using hlen
  refine ⟨{ s with errs := (s.errs.Append (some e)).1,
                   tasks := s.tasks.set j { t with phase := TaskPhase.fatal e } }, ?_, ?_, ?_, hex⟩
  · simp only [step, hex, Option.isSome_none, Bool.false_eq_true, if_false, stepAppend, ht,
      hp, append_isSome, hff, Option.isSome_some, Bool.and_self, if_true, Option.getD_some]
  · have := (append_some_len s.errs e hM).2.2 (by omega)
    show (s.errs.Append (some e)).1.errs = [e]
    rw [this, hnil]; rfl
  · exact getElem?_set_same s.tasks j t _ ht

/-- C5 (as stated, refuted): with fail-fast and `-concurrent 2`, two rows whose
executions both return an error, the first task first. When the first task
captures its error the group holds that error alone, but the second task
captures its error too before the first task has ended the process: the
process exits with code 1 and without a report, and two errors have been
captured at that point. -/
theorem failfast_two_errors_captured :
    (raceFlags true).failfast = true ∧ (raceFlags true).concurrent = 2 ∧
    (runActions (sampleRun []) sampleLib MetricsMemory (raceFlags true) [["h1"], ["h2"]]
      (raceSchedule.take 5)
      (initProc (sampleRun []) MetricsMemory (raceFlags true) [["h1"], ["h2"]])).map
        (fun s => (s.errs.errs, s.exit)) = some (["h1 is down"], none) ∧
    runActions (sampleRun []) sampleLib MetricsMemory (raceFlags true) [["h1"], ["h2"]]
      raceSchedule (initProc (sampleRun []) MetricsMemory (raceFlags true) [["h1"], ["h2"]]) =
        some raceEnd ∧
    raceEnd.exit = some (Exit.code 1) ∧ raceEnd.reported = none ∧ raceEnd.stdout = [] ∧
    raceEnd.errs.errs = ["h1 is down", "h2 is down"] ∧ raceEnd.errs.Len = 2 :=
  ⟨rfl, rfl, rfl, rfl, rfl, rfl, rfl, rfl, rfl⟩

/-- C5 (amended): for every schedule of the tasks, every concurrency limit and
every behaviour of the database. A run of the benchmark has at most
`5 * tasks + 3` steps. With fail-fast, once an execution has returned an error
no report is printed and nothing is written to the standard output; the
captured errors are no more than the executions that have returned an error,
and these are no more than the concurrency limit; the process has either exited
with code 1, with at least one error captured, or it has not exited and a task
that holds an error has its next step towards that exit enabled, so the run
cannot end otherwise. The step that captures the first error leaves exactly
that error in the group and its task on the way to the exit. Without fail-fast
no step of a task, and no step other than the return of `run.Wait()` in the
main goroutine, ends the process. -/
theorem failfast_ends_every_run {σ : Type} (env : RunEnv) (lib : ReportLib) (rec : Recorder σ)
    (fl : Flags) (paramList : List Row) (acts : List Action) (s : Proc σ)
    (hrun : runActions env lib rec fl paramList acts (initProc env rec fl paramList) = some s) :
    acts.length ≤ 5 * (taskRows fl paramList).length + 3 ∧
    (fl.failfast = true → 0 < s.failures →
      s.reported = none ∧ s.stdout = [] ∧
      s.errs.Len ≤ s.failures ∧ s.failures ≤ fl.concurrent.toNat ∧
      ((s.exit = some (Exit.code 1) ∧ 1 ≤ s.errs.Len) ∨
        (s.exit = none ∧
          ∃ j a s1, (a = Action.append j ∨ a = Action.print j ∨ a = Action.exit j) ∧
            step env lib rec fl paramList a s = some s1))) ∧
    (fl.failfast = true → ∀ (j : Nat) (t : Task) (e : String),
      s.exit = none → s.tasks[j]? = some t → t.phase = TaskPhase.returned (some e) →
      s.errs.Len = 0 →
      ∃ s1, step env lib rec fl paramList (Action.append j) s = some s1 ∧ s1.errs.errs = [e] ∧
        s1.tasks[j]? = some { t with phase := TaskPhase.fatal e } ∧ s1.exit = none) ∧
    (fl.failfast = false → ∀ (a : Action) (s1 : Proc σ),
      step env lib rec fl paramList a s = some s1 → a ≠ Action.wait → s1.exit = none) := by
  refine ⟨?_, ?_, ?_, ?_⟩
  · have h1 := run_length env lib rec fl paramList acts _ s hrun
    have h2 := stepsLeft_init env rec fl paramList
    omega
  · intro hff hf
    obtain ⟨-, hL, hF, hK, -, -, hB⟩ :=
      run_failfast env lib rec fl paramList hff acts _ s
        (init_failfast env rec fl paramList) hrun
    obtain ⟨b1, b2, b3⟩ := hB hf
    have k1 := inFatal_le_failing s.tasks
    have k2 := failing_le_inFlight s.tasks
    refine ⟨b1, b2, by omega, by omega, ?_⟩
    rcases b3 with hex | hex
    · right
      obtain ⟨j, t, ht, hp⟩ :=
        exists_of_countP_pos (fun t => t.phase.failing) s.tasks (by omega)
      obtain ⟨a, s1, ha, hs1⟩ :=
        failing_task_enabled env lib rec fl paramList hff s j t hex ht hp
      exact ⟨hex, j, a, s1, ha, hs1⟩
    · exact Or.inl hex
  · intro hff j t e hex ht hp hlen
    obtain ⟨hM, -⟩ :=
      run_failfast env lib rec fl paramList hff acts _ s
        (init_failfast env rec fl paramList) hrun
    exact first_capture env lib rec fl paramList hff s j t e hM hex ht hp hlen
  · intro hff a s1 hs1 ha
    exact task_step_no_exit env lib rec fl paramList a s s1
      (run_nofatal env lib rec fl paramList hff acts (initProc env rec fl paramList) s rfl
        hrun) hs1 ha

theorem failfast_ends_every_run_witness :
    runActions (sampleRun []) sampleLib MetricsMemory (raceFlags true) [["h1"], ["h2"]]
      lateSchedule (initProc (sampleRun []) MetricsMemory (raceFlags true) [["h1"], ["h2"]]) =
        some lateEnd ∧
    lateSchedule.length ≤ 5 * (taskRows (raceFlags true) [["h1"], ["h2"]]).length + 3 ∧
    lateEnd.reported = none ∧ lateEnd.stdout = [] ∧
    lateEnd.errs.Len ≤ lateEnd.failures ∧ lateEnd.failures ≤ (raceFlags true).concurrent.toNat ∧
    ((lateEnd.exit = some (Exit.code 1) ∧ 1 ≤ lateEnd.errs.Len) ∨
      (lateEnd.exit = none ∧
        ∃ j a s1, (a = Action.append j ∨ a = Action.print j ∨ a = Action.exit j) ∧
          step (sampleRun []) sampleLib MetricsMemory (raceFlags true) [["h1"], ["h2"]] a
            lateEnd = some s1)) :=
  ⟨rfl,
    (failfast_ends_every_run (sampleRun []) sampleLib MetricsMemory (raceFlags true)
      [["h1"], ["h2"]] lateSchedule lateEnd rfl).1,
    (failfast_ends_every_run (sampleRun []) sampleLib MetricsMemory (raceFlags true)
      [["h1"], ["h2"]] lateSchedule lateEnd rfl).2.1 rfl (by decide)⟩
/-! ## The two embeddings of the benchmark agree -/

theorem runActions_append {σ : Type} (env : RunEnv) (lib : ReportLib) (rec : Recorder σ)
    (fl : Flags) (paramList : List Row) (xs ys : List Action) :
    ∀ (s s1 : Proc σ), runActions env lib rec fl paramList xs s = some s1 →
      runActions env lib rec fl paramList (xs ++ ys) s =
        runActions env lib rec fl paramList ys s1 := by
  induction xs with
  | nil =>
    intro s s1 h
    simp only [runActions, Option.some.injEq] at h
    subst h; rfl
  | cons a rest ih =>
    intro s s1 h
    simp only [runActions, List.cons_append] at h ⊢
    cases hs : step env lib rec fl paramList a s with
    | none => simp [hs] at h
    | some s2 =>
      simp only [hs] at h ⊢
      exact ih s2 s1 h

theorem set_concat_length {α : Type} (l : List α) (x y : α) :
    (l ++ [x]).set l.length y = l ++ [y] := by
  induction l with
  | nil => rfl
  | cons a l ih => simp [ih]

theorem getElem?_concat_length {α : Type} (l : List α) (x : α) :
    (l ++ [x])[l.length]? = some x := by
  simp

theorem inFlight_concat (l : List Task) (x : Task) :
    inFlight (l ++ [x]) = inFlight l + (if x.phase != TaskPhase.done then 1 else 0) := by
  simp [inFlight, List.countP_append, List.countP_cons]

/-- One task of `runOnce` is a run of the process: the task is started, executes,
captures its error and, with fail-fast, ends the process, before anything else
happens. -/
theorem runTask_is_a_run {σ : Type} (env : RunEnv) (lib : ReportLib) (rec : Recorder σ)
    (fl : Flags) (paramList : List Row) (hc : 1 ≤ fl.concurrent) (mk : List Row → MainPc)
    (hmk : mk = MainPc.warmup ∨ mk = MainPc.measuring) (args : Row) (rest : List Row)
    (st : RunState σ) (s : Proc σ) (hA : Agrees st s) (hpc : s.pc = mk (args :: rest)) :
    ∃ acts s1, runActions env lib rec fl paramList acts s = some s1 ∧
      s1.met = (runTask env rec fl args st).1.met ∧
      s1.errs = (runTask env rec fl args st).1.errs ∧
      s1.stderr = (runTask env rec fl args st).1.stderr ∧
      s1.tasks.length = (runTask env rec fl args st).1.execs ∧
      s1.stdout = [] ∧ s1.reported = none ∧ s1.started = s.started ∧ s1.clock = s.clock ∧
      (if (runTask env rec fl args st).2 = true then s1.exit = some (Exit.code 1)
        else s1.exit = none ∧ inFlight s1.tasks = 0 ∧ s1.pc = mk rest) := by
  obtain ⟨h1, h2, h3, h4, h5, h6, h7, h8⟩ := hA
  have hlim : inFlight s.tasks < fl.concurrent.toNat := by omega
  obtain ⟨r, hr⟩ : ∃ r, r = env.exec st.execs fl.query args := ⟨_, rfl⟩
  obtain ⟨k, hk⟩ : ∃ k, k = s.tasks.length := ⟨_, rfl⟩
  have e1 : step env lib rec fl paramList Action.submit s =
      some { s with pc := mk rest, tasks := s.tasks ++ [Task.mk args TaskPhase.running] } := by
    rcases hmk with rfl | rfl <;> simp [step, h8, stepSubmit, hlim, hpc]
  have e2 : step env lib rec fl paramList (Action.execReturns k r)
      { s with pc := mk rest, tasks := s.tasks ++ [Task.mk args TaskPhase.running] } =
      some { s with
        pc := mk rest,
        met := if r.err.isNone || env.recordsFailures then
            rec.Record s.met r.elapsed fl.query args else s.met,
        tasks := s.tasks ++ [Task.mk args (TaskPhase.returned r.err)],
        failures := s.failures + (if r.err.isSome then 1 else 0) } := by
    simp [step, h8, stepExec, set_concat_length, hk]
  by_cases hf : ((s.errs.Append r.err).2 && fl.failfast) = true
  · have e3 : step env lib rec fl paramList (Action.append k)
        { s with
          pc := mk rest,
          met := if r.err.isNone || env.recordsFailures then
              rec.Record s.met r.elapsed fl.query args else s.met,
          tasks := s.tasks ++ [Task.mk args (TaskPhase.returned r.err)],
          failures := s.failures + (if r.err.isSome then 1 else 0) } =
        some { s with
          pc := mk rest,
          met := if r.err.isNone || env.recordsFailures then
              rec.Record s.met r.elapsed fl.query args else s.met,
          errs := (s.errs.Append r.err).1,
          tasks := s.tasks ++ [Task.mk args (TaskPhase.fatal (r.err.getD ""))],
          failures := s.failures + (if r.err.isSome then 1 else 0) } := by
      simp only [step, h8, Option.isSome_none, Bool.false_eq_true, if_false, stepAppend, hk,
        getElem?_concat_length, hf, if_true, set_concat_length]
    have e4 : step env lib rec fl paramList (Action.print k)
        { s with
          pc := mk rest,
          met := if r.err.isNone || env.recordsFailures then
              rec.Record s.met r.elapsed fl.query args else s.met,
          errs := (s.errs.Append r.err).1,
          tasks := s.tasks ++ [Task.mk args (TaskPhase.fatal (r.err.getD ""))],
          failures := s.failures + (if r.err.isSome then 1 else 0) } =
        some { s with
          pc := mk rest,
          met := if r.err.isNone || env.recordsFailures then
              rec.Record s.met r.elapsed fl.query args else s.met,
          errs := (s.errs.Append r.err).1,
          stderr := s.stderr ++ [r.err.getD ""],
          tasks := s.tasks ++ [Task.mk args TaskPhase.exiting],
          failures := s.failures + (if r.err.isSome then 1 else 0) } := by
      simp only [step, h8, Option.isSome_none, Bool.false_eq_true, if_false, stepPrint, hk,
        getElem?_concat_length, set_concat_length]
    have e5 : step env lib rec fl paramList (Action.exit k)
        { s with
          pc := mk rest,
          met := if r.err.isNone || env.recordsFailures then
              rec.Record s.met r.elapsed fl.query args else s.met,
          errs := (s.errs.Append r.err).1,
          stderr := s.stderr ++ [r.err.getD ""],
          tasks := s.tasks ++ [Task.mk args TaskPhase.exiting],
          failures := s.failures + (if r.err.isSome then 1 else 0) } =
        some { s with
          pc := mk rest,
          met := if r.err.isNone || env.recordsFailures then
              rec.Record s.met r.elapsed fl.query args else s.met,
          errs := (s.errs.Append r.err).1,
          stderr := s.stderr ++ [r.err.getD ""],
          tasks := s.tasks ++ [Task.mk args TaskPhase.exiting],
          exit := some (Exit.code 1),
          failures := s.failures + (if r.err.isSome then 1 else 0) } := by
      simp only [step, h8, Option.isSome_none, Bool.false_eq_true, if_false, stepExit, hk,
        getElem?_concat_length]
    refine ⟨[Action.submit, Action.execReturns k r, Action.append k, Action.print k,
      Action.exit k], ?_⟩
    simp only [runActions, e1, e2, e3, e4, e5]
    refine ⟨_, rfl, ?_⟩
    · have hf2 : ((st.errs.Append r.err).2 && fl.failfast) = true := by rw [← h2]; exact hf
      simp only [runTask, ← hr, hf2, if_true, h1, h2, h3, h6, h7, List.length_append,
        List.length_singleton, h4]
      simp
  · have e3 : step env lib rec fl paramList (Action.append k)
        { s with
          pc := mk rest,
          met := if r.err.isNone || env.recordsFailures then
              rec.Record s.met r.elapsed fl.query args else s.met,
          tasks := s.tasks ++ [Task.mk args (TaskPhase.returned r.err)],
          failures := s.failures + (if r.err.isSome then 1 else 0) } =
        some { s with
          pc := mk rest,
          met := if r.err.isNone || env.recordsFailures then
              rec.Record s.met r.elapsed fl.query args else s.met,
          errs := (s.errs.Append r.err).1,
          tasks := s.tasks ++ [Task.mk args TaskPhase.done],
          failures := s.failures + (if r.err.isSome then 1 else 0) } := by
      simp only [step, h8, Option.isSome_none, Bool.false_eq_true, if_false, stepAppend, hk,
        getElem?_concat_length, hf, set_concat_length]
    refine ⟨[Action.submit, Action.execReturns k r, Action.append k], ?_⟩
    simp only [runActions, e1, e2, e3]
    refine ⟨_, rfl, ?_⟩
    · have hf2 : ¬ ((st.errs.Append r.err).2 && fl.failfast) = true := by rw [← h2]; exact hf
      simp only [runTask, ← hr, hf2, if_false, h1, h2, h3, h6, h7, List.length_append,
        List.length_singleton, h4, inFlight_concat, h5]
      simp [h8]

/-- A pass of `runOnce` is a run of the process, one task after the other. -/
theorem runOnce_is_a_run {σ : Type} (env : RunEnv) (lib : ReportLib) (rec : Recorder σ)
    (fl : Flags) (paramList : List Row) (hc : 1 ≤ fl.concurrent) (mk : List Row → MainPc)
    (hmk : mk = MainPc.warmup ∨ mk = MainPc.measuring) :
    ∀ (rows : List Row) (st : RunState σ) (s : Proc σ), Agrees st s → s.pc = mk rows →
      ∃ acts s1, runActions env lib rec fl paramList acts s = some s1 ∧
        s1.met = (runOnce env rec fl rows st).1.met ∧
        s1.errs = (runOnce env rec fl rows st).1.errs ∧
        s1.stderr = (runOnce env rec fl rows st).1.stderr ∧
        s1.tasks.length = (runOnce env rec fl rows st).1.execs ∧
        s1.stdout = [] ∧ s1.reported = none ∧ s1.started = s.started ∧ s1.clock = s.clock ∧
        (if (runOnce env rec fl rows st).2 = true then s1.exit = some (Exit.code 1)
          else s1.exit = none ∧ inFlight s1.tasks = 0 ∧ s1.pc = mk []) := by
  intro rows
  induction rows with
  | nil =>
    intro st s hA hpc
    obtain ⟨h1, h2, h3, h4, h5, h6, h7, h8⟩ := hA
    exact ⟨[], s, rfl, h1, h2, h3, h4, h6, h7, rfl, rfl, by simp [runOnce, h8, h5, hpc]⟩
  | cons args rest ih =>
    intro st s hA hpc
    obtain ⟨a1, s1, r1, m1, m2, m3, m4, m5, m6, m7, m8, m9⟩ :=
      runTask_is_a_run env lib rec fl paramList hc mk hmk args rest st s hA hpc
    by_cases hx : (runTask env rec fl args st).2 = true
    · simp only [hx, if_true] at m9
      refine ⟨a1, s1, r1, ?_⟩
      simp only [runOnce, hx, if_true]
      exact ⟨m1, m2, m3, m4, m5, m6, m7, m8, m9⟩
    · simp only [hx, if_false] at m9
      obtain ⟨a2, s2, r2, n1, n2, n3, n4, n5, n6, n7, n8, n9⟩ :=
        ih (runTask env rec fl args st).1 s1 ⟨m1, m2, m3, m4, m9.2.1, m5, m6, m9.1⟩ m9.2.2
      refine ⟨a1 ++ a2, s2, ?_, ?_⟩
      · rw [runActions_append env lib rec fl paramList a1 a2 s s1 r1]; exact r2
      · simp only [runOnce, hx, if_false]
        exact ⟨n1, n2, n3, n4, n5, n6, n7.trans m7, n8.trans m8, n9⟩

/-- The measuring and reporting phases of `main` are a run of the process. -/
theorem measure_is_a_run {σ : Type} (env : RunEnv) (lib : ReportLib) (rec : Recorder σ)
    (fl : Flags) (paramList : List Row) (hc : 1 ≤ fl.concurrent) (st : RunState σ)
    (s : Proc σ) (hA : Agrees st s)
    (hpc : s.pc = MainPc.measuring (List.replicate fl.repeatN.toNat paramList).flatten) :
    ∃ acts s1, runActions env lib rec fl paramList acts s = some s1 ∧
      s1.exit = some (measure env lib rec fl paramList st s.started s.clock).exit ∧
      s1.stdout = (measure env lib rec fl paramList st s.started s.clock).stdout ∧
      s1.stderr = (measure env lib rec fl paramList st s.started s.clock).stderr ∧
      s1.met = (measure env lib rec fl paramList st s.started s.clock).met ∧
      s1.errs = (measure env lib rec fl paramList st s.started s.clock).errs ∧
      s1.reported = (measure env lib rec fl paramList st s.started s.clock).reported ∧
      s1.tasks.length = (measure env lib rec fl paramList st s.started s.clock).execs := by
  obtain ⟨a1, s1, r1, m1, m2, m3, m4, m5, m6, m7, m8, m9⟩ :=
    runOnce_is_a_run env lib rec fl paramList hc MainPc.measuring (Or.inr rfl) _ st s hA hpc
  by_cases hx : (runOnce env rec fl (List.replicate fl.repeatN.toNat paramList).flatten st).2
      = true
  · simp only [hx, if_true] at m9
    refine ⟨a1, s1, r1, ?_⟩
    simp only [measure, runRounds_eq, hx, if_true]
    exact ⟨m9, m5, m3, m1, m2, m6, m4⟩
  · simp only [hx, if_false] at m9
    obtain ⟨x1, x2, x3⟩ := m9
    cases hq : rec.Queries s1.met with
    | nil =>
      refine ⟨a1 ++ [Action.wait], ?_⟩
      rw [runActions_append env lib rec fl paramList a1 _ s s1 r1]
      simp only [runActions, step, x1, Option.isSome_none, Bool.false_eq_true, if_false,
        stepWait, x2, if_true, x3, hq]
      refine ⟨_, rfl, ?_⟩
      rw [m1] at hq
      simp only [measure, runRounds_eq, hx, Bool.false_eq_true, if_false, hq, m1, m2, m3, m4,
        m5, m6]
      simp
    | cons q qs =>
      refine ⟨a1 ++ [Action.wait], ?_⟩
      rw [runActions_append env lib rec fl paramList a1 _ s s1 r1]
      simp only [runActions, step, x1, Option.isSome_none, Bool.false_eq_true, if_false,
        stepWait, x2, if_true, x3, hq]
      refine ⟨_, rfl, ?_⟩
      rw [m1] at hq
      simp only [measure, runRounds_eq, hx, Bool.false_eq_true, if_false, hq, m1, m2, m3, m4,
        m5, m6, m7, m8]
      simp

/-- The function `bench`, in which the tasks run one at a time, gives the
outcome of a run of the process: the run in which every task is started only
when the one before it is done, which is a schedule under every limit of at
least 1. -/
theorem bench_is_a_run {σ : Type} (env : RunEnv) (lib : ReportLib) (rec : Recorder σ)
    (fl : Flags) (paramList : List Row) (hc : 1 ≤ fl.concurrent) :
    ∃ acts s, runActions env lib rec fl paramList acts (initProc env rec fl paramList) = some s ∧
      s.exit = some (bench env lib rec fl paramList).exit ∧
      s.stdout = (bench env lib rec fl paramList).stdout ∧
      s.stderr = (bench env lib rec fl paramList).stderr ∧
      s.met = (bench env lib rec fl paramList).met ∧
      s.errs = (bench env lib rec fl paramList).errs ∧
      s.reported = (bench env lib rec fl paramList).reported ∧
      s.tasks.length = (bench env lib rec fl paramList).execs := by
  have hinit : Agrees (initState rec) (initProc env rec fl paramList) :=
    ⟨rfl, rfl, rfl, rfl, rfl, rfl, rfl, rfl⟩
  cases hw : fl.warmup with
  | false =>
    have hpc : (initProc env rec fl paramList).pc =
        MainPc.measuring (List.replicate fl.repeatN.toNat paramList).flatten := by
      simp [initProc, hw]
    obtain ⟨acts, s1, r1, m⟩ :=
      measure_is_a_run env lib rec fl paramList hc (initState rec) _ hinit hpc
    refine ⟨acts, s1, r1, ?_⟩
    simp only [bench, hw, Bool.false_eq_true, if_false]
    exact m
  | true =>
    have hpc : (initProc env rec fl paramList).pc = MainPc.warmup paramList := by
      simp [initProc, hw]
    obtain ⟨a1, s1, r1, m1, m2, m3, m4, m5, m6, m7, m8, m9⟩ :=
      runOnce_is_a_run env lib rec fl paramList hc MainPc.warmup (Or.inl rfl) paramList
        (initState rec) _ hinit hpc
    by_cases hx : (runOnce env rec fl paramList (initState rec)).2 = true
    · simp only [hx, if_true] at m9
      refine ⟨a1, s1, r1, ?_⟩
      simp only [bench, hw, if_true, hx]
      exact ⟨m9, m5, m3, m1, m2, m6, m4⟩
    · simp only [hx, if_false] at m9
      obtain ⟨x1, x2, x3⟩ := m9
      by_cases hl : (runOnce env rec fl paramList (initState rec)).1.errs.Len > 0
      · have hl1 : s1.errs.Len > 0 := by rw [m2]; exact hl
        refine ⟨a1 ++ [Action.wait], ?_⟩
        rw [runActions_append env lib rec fl paramList a1 _ _ s1 r1]
        simp only [runActions, step, x1, Option.isSome_none, Bool.false_eq_true, if_false,
          stepWait, x2, if_true, x3, hl1]
        refine ⟨_, rfl, ?_⟩
        simp only [bench, hw, if_true, hx, Bool.false_eq_true, if_false, hl, m1, m2, m3, m4,
          m5, m6]
        simp
      · have hl1 : ¬ s1.errs.Len > 0 := by rw [m2]; exact hl
        have hstep : step env lib rec fl paramList Action.wait s1 =
            some { s1 with started := env.now s1.clock, clock := s1.clock + 1,
                           met := rec.Reset s1.met,
                           pc := MainPc.measuring
                             (List.replicate fl.repeatN.toNat paramList).flatten } := by
          simp only [step, x1, Option.isSome_none, Bool.false_eq_true, if_false, stepWait, x2,
            if_true, x3, hl1]
        obtain ⟨a2, s2, r2, n⟩ :=
          measure_is_a_run env lib rec fl paramList hc
            { (runOnce env rec fl paramList (initState rec)).1 with
              met := rec.Reset (runOnce env rec fl paramList (initState rec)).1.met }
            { s1 with started := env.now s1.clock, clock := s1.clock + 1,
                      met := rec.Reset s1.met,
                      pc := MainPc.measuring
                        (List.replicate fl.repeatN.toNat paramList).flatten }
            ⟨by rw [m1], m2, m3, m4, x2, m5, m6, x1⟩ rfl
        refine ⟨a1 ++ ([Action.wait] ++ a2), s2, ?_, ?_⟩
        · rw [runActions_append env lib rec fl paramList a1 _ _ s1 r1]
          simp only [List.singleton_append, runActions, hstep]
          exact r2
        · have hclock : s1.clock = 1 := by rw [m8]; rfl
          simp only [bench, hw, if_true, hx, Bool.false_eq_true, if_false, hl]
          simp only [hclock] at n
          exact n
/-! ## Theorems about printReport -/

theorem digitChar_ne_newline (k : Nat) (h : k < 10) : Nat.digitChar k ≠ '\n' := by
  interval_cases k <;> decide

theorem toDigitsCore_no_newline :
    ∀ (fuel n : Nat) (ds : List Char), (∀ c ∈ ds, c ≠ '\n') →
      ∀ c ∈ Nat.toDigitsCore 10 fuel n ds, c ≠ '\n' := by
  intro fuel
  induction fuel with
  | zero => intro n ds hds c hc; exact hds c (by simpa [Nat.toDigitsCore] using hc)
  | succ fuel ih =>
    intro n ds hds c hc
    have hcons : ∀ x ∈ Nat.digitChar (n % 10) :: ds, x ≠ '\n' := by
      intro x hx
      rcases List.mem_cons.mp hx with rfl | hx
      · exact digitChar_ne_newline _ (Nat.mod_lt _ (by decide))
      · exact hds x hx
    unfold Nat.toDigitsCore at hc
    by_cases h0 : n / 10 = 0
    · simp only [h0, if_true] at hc
      exact hcons c hc
    · simp only [h0, if_false] at hc
      exact ih _ _ hcons c hc

theorem repr_no_newline (n : Nat) : ∀ c ∈ (Nat.repr n).data, c ≠ '\n' := by
  intro c hc
  have : (Nat.repr n).data = Nat.toDigitsCore 10 (n + 1) n [] := rfl
  rw [this] at hc
  exact toDigitsCore_no_newline _ _ [] (by simp) c hc

theorem itoa_no_newline (i : Int) : ∀ c ∈ (itoa i).data, c ≠ '\n' := by
  intro c hc
  cases i with
  | ofNat n => exact repr_no_newline n c hc
  | negSucc n =>
    simp only [itoa, String.data_append, List.mem_append] at hc
    rcases hc with hc | hc
    · simp only [List.mem_singleton] at hc
      subst hc; decide
    · exact repr_no_newline _ c hc

theorem takeWhile_before_newline (a rest : List Char) (h : ∀ c ∈ a, c ≠ '\n') :
    (a ++ '\n' :: rest).takeWhile (fun c => c != '\n') = a := by
  induction a with
  | nil => simp [List.takeWhile]
  | cons x xs ih =>
    have hx : x ≠ '\n' := h x (by simp)
    have hxs : ∀ c ∈ xs, c ≠ '\n' := fun c hc => h c (by simp [hc])
    have hb : (x != '\n') = true := by simpa using hx
    simp only [List.cons_append, List.takeWhile, hb]
    exact congrArg (fun l => x :: l) (ih hxs)

theorem wrapInt_of_fits (x : Int) (h1 : -(2 ^ 63) ≤ x) (h2 : x < 2 ^ 63) : wrapInt x = x := by
  unfold wrapInt
  have : (x + 2 ^ 63) % 2 ^ 64 = x + 2 ^ 63 :=
    Int.emod_eq_of_lt (by omega) (by omega)
  rw [this]; ring

/-- C1: for every parameter count `n ≥ 0` and repeat factor `r`, the first line
that `printReport` prints is "Ran <n*r> queries in total", with `n*r` the value
of the Go expression `n*repeat` (the product itself whenever it fits an `int`),
followed by " (<r> × <n> parameters)" exactly when `r > 1` and by nothing
otherwise; `n = 200, r = 1` gives "Ran 200 queries in total" and
`n = 200, r = 2` gives "Ran 400 queries in total (2 × 200 parameters)". -/
theorem report_header (lib : ReportLib) (testWall : Int) (times : List Int) (wall : Int)
    (n : Nat) (r : Int) :
    firstLine (String.join (printReport lib testWall times wall n r).1) =
      "Ran " ++ itoa (wrapInt ((n : Int) * r)) ++ " queries in total" ++
        (if r > 1 then " (" ++ itoa r ++ " × " ++ itoa n ++ " parameters)" else "") ∧
    (-(2 ^ 63) ≤ (n : Int) * r → (n : Int) * r < 2 ^ 63 →
      wrapInt ((n : Int) * r) = (n : Int) * r) ∧
    firstLine (String.join (printReport lib testWall times wall (200 : Nat) 1).1) =
      "Ran 200 queries in total" ∧
    firstLine (String.join (printReport lib testWall times wall (200 : Nat) 2).1) =
      "Ran 400 queries in total (2 × 200 parameters)" := by
  have key : ∀ (m : Nat) (q : Int),
      firstLine (String.join (printReport lib testWall times wall m q).1) =
        "Ran " ++ itoa (wrapInt ((m : Int) * q)) ++ " queries in total" ++
          (if q > 1 then " (" ++ itoa q ++ " × " ++ itoa m ++ " parameters)" else "") := by
    intro m q
    have hno : ∀ c ∈ ("Ran " ++ itoa (wrapInt ((m : Int) * q)) ++ " queries in total" ++
        (if q > 1 then " (" ++ itoa q ++ " × " ++ itoa m ++ " parameters)" else "")).data,
        c ≠ '\n' := by
      intro c hc
      have hlit : ∀ (s : String), (∀ x ∈ s.data, x ≠ '\n') → c ∈ s.data → c ≠ '\n' :=
        fun s hs hcs => hs c hcs
      simp only [String.data_append, List.mem_append] at hc
      rcases hc with ((hc | hc) | hc) | hc
      · exact hlit "Ran " (by decide) hc
      · exact itoa_no_newline _ c hc
      · exact hlit " queries in total" (by decide) hc
      · by_cases hq : q > 1
        · simp only [hq, if_true, String.data_append, List.mem_append] at hc
          rcases hc with (((hc | hc) | hc) | hc) | hc
          · exact hlit " (" (by decide) hc
          · exact itoa_no_newline _ c hc
          · exact hlit " × " (by decide) hc
          · exact itoa_no_newline _ c hc
          · exact hlit " parameters)" (by decide) hc
        · simp only [hq, if_false] at hc
          cases hc
    have hdata : ∃ rest, (String.join (printReport lib testWall times wall m q).1).data =
        ("Ran " ++ itoa (wrapInt ((m : Int) * q)) ++ " queries in total" ++
          (if q > 1 then " (" ++ itoa q ++ " × " ++ itoa m ++ " parameters)" else "")).data ++
          '\n' :: rest := by
      have hnl : ("\n" : String).data = ['\n'] := rfl
      have hem : ("" : String).data = [] := rfl
      by_cases hq : q > 1
      · apply Exists.intro
        simp only [printReport, hq, if_true, String.data_join, List.map_append, List.map_cons,
          List.map_nil, List.flatten_append, List.flatten_cons, List.flatten_nil,
          String.data_append, List.append_assoc, List.append_nil, hnl, List.singleton_append,
          List.cons_append, List.nil_append]
        rfl
      · apply Exists.intro
        simp only [printReport, hq, if_false, String.data_join, List.map_append, List.map_cons,
          List.map_nil, List.flatten_append, List.flatten_cons, List.flatten_nil,
          String.data_append, List.append_assoc, List.append_nil, hnl, hem,
          List.singleton_append, List.cons_append, List.nil_append]
        rfl
    obtain ⟨rest, hrest⟩ := hdata
    unfold firstLine
    rw [hrest, takeWhile_before_newline _ _ hno]
  refine ⟨key n r, wrapInt_of_fits _, ?_, ?_⟩
  · rw [key 200 1]; decide
  · rw [key 200 2]; decide

theorem report_header_witness :
    wrapInt (((200 : Nat) : Int) * 2) = ((200 : Nat) : Int) * 2 :=
  (report_header sampleLib 0 [] 0 200 2).2.1 (by decide) (by decide)

/-! ## Theorems about the float64 arithmetic -/

end Sqlbench
